import Mathlib

set_option maxRecDepth 40000

/-!
Verification development for the Pokedex repository's Redis caching layer
(`backend/services/cache.py` and the cache-touching logic of
`backend/routes/pokemon_routes.py`).

The Python code is shallowly embedded: the Redis backend is modelled as an
explicit key/value state with a logical clock, every `CacheManager` /
`PokemonCache` / `PokeAPICache` method becomes a pure state-passing function,
and the external `json` library (used by `_serialize_data`, `_deserialize_data`
and the parameter-hash of `cache_pokemon_list`) is modelled by an executable
JSON printer and parser over a JSON value type.  The `hashlib.md5` digest used
for list-cache keys is implemented bit-faithfully (RFC 1321) on the UTF-8
bytes of the canonical parameter string.
-/

/-! ## Characters, digits, hex -/

/-- Lower-case hexadecimal digit characters, as produced by Python's
`hexdigest()` and by `json.dumps`'s `\u00xx` escapes.  Only arguments `< 16`
arise in this development. -/
def hexDigit : Nat → Char
  | 0 => '0' | 1 => '1' | 2 => '2' | 3 => '3' | 4 => '4'
  | 5 => '5' | 6 => '6' | 7 => '7' | 8 => '8' | 9 => '9'
  | 10 => 'a' | 11 => 'b' | 12 => 'c' | 13 => 'd' | 14 => 'e'
  | _ => 'f'

/-- Numeric value of a hexadecimal digit character (upper or lower case). -/
def hexVal (c : Char) : Option Nat :=
  if '0' ≤ c ∧ c ≤ '9' then some (c.toNat - 48)
  else if 'a' ≤ c ∧ c ≤ 'f' then some (c.toNat - 87)
  else if 'A' ≤ c ∧ c ≤ 'F' then some (c.toNat - 55)
  else none

/-- Fuel-driven digit expansion; `natChars` supplies adequate fuel.  The fuel
makes the definition structurally recursive, hence kernel-computable. -/
def natCharsF : Nat → Nat → List Char
  | 0, _ => []
  | f + 1, n => if n < 10 then [hexDigit n] else natCharsF f (n / 10) ++ [hexDigit (n % 10)]

/-- Decimal digit characters of a natural number, most significant first:
the embedding of Python's `str` on non-negative integers. -/
def natChars (n : Nat) : List Char := natCharsF (n + 1) n

/-- Decimal representation of an integer, the embedding of Python's `str`
on `int`. -/
def intChars (i : Int) : List Char :=
  if i < 0 then '-' :: natChars i.natAbs else natChars i.natAbs

/-- Python `str(i)` for an integer, as a Lean `String`. -/
def pyStr (i : Int) : String := String.mk (intChars i)

/-! ## JSON values

Model of the Python values that `json.dumps` encodes structurally:
`None`, `bool`, `int`, `str`, `list`, and string-keyed `dict`
(JSON object keys are strings; non-string Python dict keys are out of
model, as are floats).  The three types are a mutual presentation of
JSON values, value arrays and key/value field lists. -/

mutual

inductive JVal : Type where
  | null : JVal
  | bool (b : Bool) : JVal
  | num (n : Int) : JVal
  | str (s : String) : JVal
  | arr (xs : JArr) : JVal
  | obj (fs : JObj) : JVal
  deriving DecidableEq

inductive JArr : Type where
  | nil : JArr
  | cons (hd : JVal) (tl : JArr) : JArr
  deriving DecidableEq

inductive JObj : Type where
  | nil : JObj
  | cons (k : String) (v : JVal) (tl : JObj) : JObj
  deriving DecidableEq

end

/-! ## JSON printing (`json.dumps` with default separators) -/

/-- Escape of one character inside a JSON string literal, as emitted by
Python's `json.dumps`: `"` and `\` are backslash-escaped, the control
characters with short escapes use them, remaining control characters use
`\u00xx`; all other characters are emitted verbatim (the `ensure_ascii`
hex-escaping of non-ASCII characters is elided: it does not change which
value a literal denotes). -/
def escChar (c : Char) : List Char :=
  if c = '"' then ['\\', '"']
  else if c = '\\' then ['\\', '\\']
  else if c = '\n' then ['\\', 'n']
  else if c = '\t' then ['\\', 't']
  else if c = '\r' then ['\\', 'r']
  else if c.toNat = 8 then ['\\', 'b']
  else if c.toNat = 12 then ['\\', 'f']
  else if c.toNat < 32 then ['\\', 'u', '0', '0', hexDigit (c.toNat / 16), hexDigit (c.toNat % 16)]
  else [c]

/-- Escaped body of a JSON string literal. -/
def escStr : List Char → List Char
  | [] => []
  | c :: cs => escChar c ++ escStr cs

/-- Full JSON string literal for `s`, quotes included. -/
def strLit (s : String) : List Char := '"' :: (escStr s.data ++ ['"'])

mutual

/-- Characters of the `json.dumps` encoding of a value, with Python's
default separators (`", "` between items, `": "` after keys). -/
def jChars : JVal → List Char
  | .null => ['n', 'u', 'l', 'l']
  | .bool b => if b then ['t', 'r', 'u', 'e'] else ['f', 'a', 'l', 's', 'e']
  | .num i => intChars i
  | .str s => strLit s
  | .arr .nil => ['[', ']']
  | .arr (.cons x xs) => '[' :: (jChars x ++ jArrChars xs ++ [']'])
  | .obj .nil => ['\x7b', '\x7d']
  | .obj (.cons k v fs) =>
      '\x7b' :: (strLit k ++ ':' :: ' ' :: jChars v ++ jObjChars fs ++ ['\x7d'])

/-- Encoding of the remaining array items, each preceded by `", "`. -/
def jArrChars : JArr → List Char
  | .nil => []
  | .cons x xs => ',' :: ' ' :: (jChars x ++ jArrChars xs)

/-- Encoding of the remaining object fields, each preceded by `", "`. -/
def jObjChars : JObj → List Char
  | .nil => []
  | .cons k v fs => ',' :: ' ' :: (strLit k ++ ':' :: ' ' :: jChars v ++ jObjChars fs)

end

/-- The `json.dumps` encoding of a value as a `String`. -/
def jDumps (v : JVal) : String := String.mk (jChars v)

example : jDumps (.obj (.cons "a" (.num 1) (.cons "b" (.arr (.cons (.num 1) (.cons .null .nil))) .nil)))
    = "\x7b\"a\": 1, \"b\": [1, null]\x7d" := rfl

example : jDumps (.str "x\"y\\z\n") = "\"x\\\"y\\\\z\\n\"" := rfl

example : jDumps (.num (-17)) = "-17" := rfl

/-! ## JSON parsing (`json.loads` on the textual format `jChars` produces)

The parser models Python's `json.loads` restricted to what this repository
can ever store: the output format of `json.dumps` above (integers, no
floats).  It is fuel-indexed so that it is structurally recursive and
kernel-computable; `jLoads` supplies adequate fuel for any input. -/

/-- Drop leading JSON whitespace. -/
def skipWs : List Char → List Char
  | [] => []
  | c :: cs => if c = ' ' ∨ c = '\t' ∨ c = '\n' ∨ c = '\r' then skipWs cs else c :: cs

/-- Expect a literal prefix; return the remainder on success. -/
def dropPre : List Char → List Char → Option (List Char)
  | [], cs => some cs
  | _ :: _, [] => none
  | p :: ps, c :: cs => if p = c then dropPre ps cs else none

/-- Decode one escape sequence (the character after a backslash). -/
def decodeEsc : List Char → Option (Char × List Char)
  | [] => none
  | e :: cs =>
    if e = '"' then some ('"', cs)
    else if e = '\\' then some ('\\', cs)
    else if e = '/' then some ('/', cs)
    else if e = 'n' then some ('\n', cs)
    else if e = 't' then some ('\t', cs)
    else if e = 'r' then some ('\r', cs)
    else if e = 'b' then some (Char.ofNat 8, cs)
    else if e = 'f' then some (Char.ofNat 12, cs)
    else if e = 'u' then
      match cs with
      | h1 :: h2 :: h3 :: h4 :: cs4 =>
        match hexVal h1, hexVal h2, hexVal h3, hexVal h4 with
        | some a, some b, some c, some d => some (Char.ofNat (((a * 16 + b) * 16 + c) * 16 + d), cs4)
        | _, _, _, _ => none
      | _ => none
    else none

/-- Parse the body of a JSON string literal (after the opening quote),
returning the decoded characters and the remainder after the closing
quote.  One unit of fuel is spent per decoded character. -/
def parseStrBody : Nat → List Char → Option (List Char × List Char)
  | 0, _ => none
  | _ + 1, [] => none
  | f + 1, c :: cs =>
    if c = '"' then some ([], cs)
    else if c = '\\' then
      match decodeEsc cs with
      | none => none
      | some (ch, cs2) =>
        match parseStrBody f cs2 with
        | none => none
        | some (r, rest) => some (ch :: r, rest)
    else
      match parseStrBody f cs with
      | none => none
      | some (r, rest) => some (c :: r, rest)

/-- Greedy decimal-digit accumulator. -/
def parseNatGo (acc : Nat) : List Char → Nat × List Char
  | [] => (acc, [])
  | c :: cs =>
    if c.isDigit then parseNatGo (acc * 10 + (c.toNat - 48)) cs else (acc, c :: cs)

/-- Parse a non-negative decimal integer (at least one digit). -/
def parseNat (cs : List Char) : Option (Nat × List Char) :=
  match cs with
  | [] => none
  | c :: _ => if c.isDigit then some (parseNatGo 0 cs) else none

mutual

/-- Parse one JSON value.  The fuel bounds the nesting/iteration depth;
`jLoads` supplies `input length + 1`, which is always adequate. -/
def parseVal : Nat → List Char → Option (JVal × List Char)
  | 0, _ => none
  | f + 1, cs =>
    match cs with
    | [] => none
    | c :: cs' =>
      if c = 'n' then
        match dropPre ['u', 'l', 'l'] cs' with
        | some r => some (.null, r)
        | none => none
      else if c = 't' then
        match dropPre ['r', 'u', 'e'] cs' with
        | some r => some (.bool true, r)
        | none => none
      else if c = 'f' then
        match dropPre ['a', 'l', 's', 'e'] cs' with
        | some r => some (.bool false, r)
        | none => none
      else if c = '"' then
        match parseStrBody (cs'.length + 1) cs' with
        | some (s, r) => some (.str (String.mk s), r)
        | none => none
      else if c = '-' then
        match parseNat cs' with
        | some (m, r) => some (.num (-(m : Int)), r)
        | none => none
      else if c.isDigit then
        match parseNat (c :: cs') with
        | some (m, r) => some (.num (m : Int), r)
        | none => none
      else if c = '[' then
        match skipWs cs' with
        | [] => none
        | d :: r2 => if d = ']' then some (.arr .nil, r2) else parseArrItems f (d :: r2)
      else if c = '\x7b' then
        match skipWs cs' with
        | [] => none
        | d :: r2 => if d = '\x7d' then some (.obj .nil, r2) else parseObjItems f (d :: r2)
      else none

/-- Parse the comma-separated items of a non-empty array, up to and
including the closing bracket. -/
def parseArrItems : Nat → List Char → Option (JVal × List Char)
  | 0, _ => none
  | f + 1, cs =>
    match parseVal f cs with
    | none => none
    | some (v, r) =>
      match skipWs r with
      | [] => none
      | c :: r2 =>
        if c = ']' then some (.arr (.cons v .nil), r2)
        else if c = ',' then
          match parseArrItems f (skipWs r2) with
          | some (.arr vs, r3) => some (.arr (.cons v vs), r3)
          | some (_, _) => none
          | none => none
        else none

/-- Parse the comma-separated fields of a non-empty object, up to and
including the closing brace. -/
def parseObjItems : Nat → List Char → Option (JVal × List Char)
  | 0, _ => none
  | f + 1, cs =>
    match cs with
    | [] => none
    | c :: cs' =>
      if c = '"' then
        match parseStrBody (cs'.length + 1) cs' with
        | none => none
        | some (k, r) =>
          match skipWs r with
          | [] => none
          | d :: r2 =>
            if d = ':' then
              match parseVal f (skipWs r2) with
              | none => none
              | some (v, r3) =>
                match skipWs r3 with
                | [] => none
                | e :: r4 =>
                  if e = '\x7d' then some (.obj (.cons (String.mk k) v .nil), r4)
                  else if e = ',' then
                    match parseObjItems f (skipWs r4) with
                    | some (.obj fs, r5) => some (.obj (.cons (String.mk k) v fs), r5)
                    | some (_, _) => none
                    | none => none
                  else none
            else none
      else none

end

/-- Model of `json.loads`: parse a complete JSON document; `none` models a
raised `json.JSONDecodeError`. -/
def jLoads (s : String) : Option JVal :=
  match parseVal (s.data.length + 1) (skipWs s.data) with
  | some (v, rest) => if skipWs rest = [] then some v else none
  | none => none

example : jLoads "\x7b\"a\": 1, \"b\": [1, null, \"x\\ny\"]\x7d"
    = some (.obj (.cons "a" (.num 1)
        (.cons "b" (.arr (.cons (.num 1) (.cons .null (.cons (.str "x\ny") .nil)))) .nil))) := rfl

example : jLoads "not json" = none := rfl

example : jLoads (jDumps (.arr (.cons (.num (-3)) (.cons (.bool true) .nil))))
    = some (.arr (.cons (.num (-3)) (.cons (.bool true) .nil))) := rfl

/-! ## MD5 (model of `hashlib.md5(...).hexdigest()`)

Bit-faithful implementation of RFC 1321 over a byte list, used by
`PokemonCache.cache_pokemon_list` / `get_pokemon_list` to hash the canonical
parameter string.  All arithmetic is `Nat` with explicit `% 2^32`. -/

/-- UTF-8 bytes of one character (model of Python `str.encode()`). -/
def utf8Char (c : Char) : List Nat :=
  let n := c.toNat
  if n < 128 then [n]
  else if n < 2048 then [192 + n / 64, 128 + n % 64]
  else if n < 65536 then [224 + n / 4096, 128 + n / 64 % 64, 128 + n % 64]
  else [240 + n / 262144, 128 + n / 4096 % 64, 128 + n / 64 % 64, 128 + n % 64]

/-- UTF-8 bytes of a string (model of Python `str.encode()`). -/
def utf8Bytes (s : String) : List Nat := (s.data.map utf8Char).flatten

/-- The 64 MD5 sine-table constants `K[i]` of RFC 1321. -/
def md5K : List Nat :=
  [0xd76aa478, 0xe8c7b756, 0x242070db, 0xc1bdceee,
   0xf57c0faf, 0x4787c62a, 0xa8304613, 0xfd469501,
   0x698098d8, 0x8b44f7af, 0xffff5bb1, 0x895cd7be,
   0x6b901122, 0xfd987193, 0xa679438e, 0x49b40821,
   0xf61e2562, 0xc040b340, 0x265e5a51, 0xe9b6c7aa,
   0xd62f105d, 0x02441453, 0xd8a1e681, 0xe7d3fbc8,
   0x21e1cde6, 0xc33707d6, 0xf4d50d87, 0x455a14ed,
   0xa9e3e905, 0xfcefa3f8, 0x676f02d9, 0x8d2a4c8a,
   0xfffa3942, 0x8771f681, 0x6d9d6122, 0xfde5380c,
   0xa4beea44, 0x4bdecfa9, 0xf6bb4b60, 0xbebfbc70,
   0x289b7ec6, 0xeaa127fa, 0xd4ef3085, 0x04881d05,
   0xd9d4d039, 0xe6db99e5, 0x1fa27cf8, 0xc4ac5665,
   0xf4292244, 0x432aff97, 0xab9423a7, 0xfc93a039,
   0x655b59c3, 0x8f0ccc92, 0xffeff47d, 0x85845dd1,
   0x6fa87e4f, 0xfe2ce6e0, 0xa3014314, 0x4e0811a1,
   0xf7537e82, 0xbd3af235, 0x2ad7d2bb, 0xeb86d391]

/-- The per-step left-rotation amounts `s[i]` of RFC 1321. -/
def md5S : List Nat :=
  [7, 12, 17, 22, 7, 12, 17, 22, 7, 12, 17, 22, 7, 12, 17, 22,
   5, 9, 14, 20, 5, 9, 14, 20, 5, 9, 14, 20, 5, 9, 14, 20,
   4, 11, 16, 23, 4, 11, 16, 23, 4, 11, 16, 23, 4, 11, 16, 23,
   6, 10, 15, 21, 6, 10, 15, 21, 6, 10, 15, 21, 6, 10, 15, 21]

/-- Left-rotation of a 32-bit word. -/
def rotl32 (x s : Nat) : Nat :=
  ((x <<< s) % 4294967296) ||| (x >>> (32 - s))

/-- Bitwise complement of a 32-bit word. -/
def not32 (x : Nat) : Nat := 4294967295 ^^^ x

/-- The `j`-th little-endian 32-bit word of a 64-byte block. -/
def leWord (block : List Nat) (j : Nat) : Nat :=
  block.getD (4 * j) 0 + 256 * block.getD (4 * j + 1) 0 +
    65536 * block.getD (4 * j + 2) 0 + 16777216 * block.getD (4 * j + 3) 0

/-- One of the 64 MD5 steps applied to the running state `(a, b, c, d)`. -/
def md5step (block : List Nat) (st : Nat × Nat × Nat × Nat) (i : Nat) : Nat × Nat × Nat × Nat :=
  let (a, b, c, d) := st
  let f :=
    if i < 16 then (b &&& c) ||| (not32 b &&& d)
    else if i < 32 then (d &&& b) ||| (not32 d &&& c)
    else if i < 48 then b ^^^ c ^^^ d
    else c ^^^ (b ||| not32 d)
  let g :=
    if i < 16 then i
    else if i < 32 then (5 * i + 1) % 16
    else if i < 48 then (3 * i + 5) % 16
    else (7 * i) % 16
  let t := (f + a + md5K.getD i 0 + leWord block g) % 4294967296
  let b' := (b + rotl32 t (md5S.getD i 0)) % 4294967296
  (d, b', b, c)

/-- Compression of one 64-byte block into the chaining state. -/
def md5block (st : Nat × Nat × Nat × Nat) (block : List Nat) : Nat × Nat × Nat × Nat :=
  let (a0, b0, c0, d0) := st
  let (a, b, c, d) := (List.range 64).foldl (md5step block) st
  ((a0 + a) % 4294967296, (b0 + b) % 4294967296, (c0 + c) % 4294967296, (d0 + d) % 4294967296)

/-- MD5 padding: `0x80`, zeros to 56 mod 64, then the bit length as eight
little-endian bytes (mod `2^64`). -/
def md5pad (msg : List Nat) : List Nat :=
  msg ++ 128 :: List.replicate ((56 + 64 - (msg.length + 1) % 64) % 64) 0 ++
    (List.range 8).map (fun i => 8 * msg.length / 256 ^ i % 256)

/-- Split a byte list into 64-byte blocks (fuel-driven for structural
recursion; adequate fuel is supplied by `md5bytes`). -/
def chunks64 : Nat → List Nat → List (List Nat)
  | 0, _ => []
  | _ + 1, [] => []
  | f + 1, bs => bs.take 64 :: chunks64 f (bs.drop 64)

/-- MD5 state after absorbing a whole (padded) message. -/
def md5bytes (msg : List Nat) : Nat × Nat × Nat × Nat :=
  let padded := md5pad msg
  (chunks64 padded.length padded).foldl md5block (0x67452301, 0xefcdab89, 0x98badcfe, 0x10325476)

/-- Two lower-case hex characters of a byte. -/
def hexByte (b : Nat) : List Char := [hexDigit (b / 16), hexDigit (b % 16)]

/-- Eight hex characters of a 32-bit word rendered byte-wise little-endian,
as `hexdigest()` renders each state word. -/
def wordHex (w : Nat) : List Char :=
  hexByte (w % 256) ++ hexByte (w / 256 % 256) ++ hexByte (w / 65536 % 256) ++
    hexByte (w / 16777216 % 256)

/-- Model of `hashlib.md5(s.encode()).hexdigest()`. -/
def md5hex (s : String) : String :=
  let (a, b, c, d) := md5bytes (utf8Bytes s)
  String.mk (wordHex a ++ wordHex b ++ wordHex c ++ wordHex d)

example : md5hex "" = "d41d8cd98f00b204e9800998ecf8427e" := rfl

example : md5hex "abc" = "900150983cd24fb0d6963f7d28e17f72" := rfl

example : md5hex "The quick brown fox jumps over the lazy dog"
    = "9e107d9d372bb6826bd81d3542a419d6" := rfl

/-! ## Canonical (sorted-keys) dumps, model of `json.dumps(p, sort_keys=True)` -/

/-- Boolean code-point-lexicographic comparison, Python's `<` on `str`. -/
def charListLt : List Char → List Char → Bool
  | [], [] => false
  | [], _ :: _ => true
  | _ :: _, [] => false
  | a :: as, b :: bs => if a < b then true else if b < a then false else charListLt as bs

/-- Insert a field into a key-sorted field list (ascending code-point
order, Python's string ordering). -/
def objInsert (k : String) (v : JVal) : JObj → JObj
  | .nil => .cons k v .nil
  | .cons k2 v2 tl =>
    if charListLt k2.data k.data then .cons k2 v2 (objInsert k v tl)
    else .cons k v (.cons k2 v2 tl)

mutual

/-- Recursively sort every object's fields by key, as `sort_keys=True` does. -/
def sortJ : JVal → JVal
  | .arr xs => .arr (sortJA xs)
  | .obj fs => .obj (sortJO fs)
  | v => v

/-- Elementwise `sortJ` over array items. -/
def sortJA : JArr → JArr
  | .nil => .nil
  | .cons x xs => .cons (sortJ x) (sortJA xs)

/-- Insertion sort of object fields by key, sorting each value recursively. -/
def sortJO : JObj → JObj
  | .nil => .nil
  | .cons k v tl => objInsert k (sortJ v) (sortJO tl)

end

/-- Model of `json.dumps(v, sort_keys=True)` with default separators. -/
def jDumpsSorted (v : JVal) : String := String.mk (jChars (sortJ v))

example : jDumpsSorted (.obj (.cons "type" .null (.cons "page" (.num 3) .nil)))
    = "\x7b\"page\": 3, \"type\": null\x7d" := rfl

/-! ## Redis glob matching (model of the `KEYS pattern` command)

The repository only ever passes patterns of the shape `prefix:*`, but the
matcher implements the general `*` / `?` glob semantics.  It is fuel-indexed
(one unit per recursion step) so that it is kernel-computable; `globM`
supplies adequate fuel. -/

/-- Fuel-driven glob matcher core. -/
def globMF : Nat → List Char → List Char → Bool
  | 0, _, _ => false
  | f + 1, p, s =>
    match p with
    | [] => s.isEmpty
    | c :: ps =>
      if c = '*' then
        globMF f ps s ||
          (match s with
           | [] => false
           | _ :: cs => globMF f p cs)
      else
        match s with
        | [] => false
        | d :: ds => (c = '?' || c = d) && globMF f ps ds

/-- Glob match of a pattern against a string (character lists). -/
def globM (p s : List Char) : Bool := globMF (p.length + s.length + 1) p s

/-- Glob match of a Redis `KEYS` pattern against a key. -/
def globMatch (pat key : String) : Bool := globM pat.data key.data

example : globMatch "pokemon:*" "pokemon:25" = true := rfl

example : globMatch "pokeapi:*" "pokeapi_pokemon:1" = false := rfl

/-! ## The Redis backend state

A key/value store with a logical clock: each entry is a key, a stored
string, and an optional absolute expiry instant.  An entry is observable
("live") while its expiry has not been reached. -/

/-- State of the backing store: logical time plus entries
`(key, value, absolute expiry)`. -/
structure RedisState where
  now : Nat
  entries : List (String × String × Option Nat)
  deriving DecidableEq

/-- Observability of an entry with the given expiry at time `now`. -/
def entryLive (now : Nat) : Option Nat → Bool
  | none => true
  | some e => now < e

/-- Redis `GET`: the stored string of the live entry under `k`, if any. -/
def rlookup (st : RedisState) (k : String) : Option String :=
  match st.entries.find? (fun e => e.1 == k && entryLive st.now e.2.2) with
  | some e => some e.2.1
  | none => none

/-- Redis `SET`/`SETEX`: store `v` under `k` with the given absolute expiry,
replacing any previous entry for `k`. -/
def rstore (st : RedisState) (k v : String) (expiry : Option Nat) : RedisState :=
  { st with entries := (k, v, expiry) :: st.entries.filter (fun e => e.1 ≠ k) }

/-- Redis `DEL k`: remove the entry under `k`; the count is 1 when a live
entry existed, else 0. -/
def rdelete (st : RedisState) (k : String) : Nat × RedisState :=
  ((if (rlookup st k).isSome then 1 else 0),
   { st with entries := st.entries.filter (fun e => e.1 ≠ k) })

/-- Redis `KEYS pat`: the keys of live entries matching the pattern. -/
def rkeys (st : RedisState) (pat : String) : List String :=
  (st.entries.filter (fun e => entryLive st.now e.2.2 && globMatch pat e.1)).map (fun e => e.1)

/-- Redis `DEL` over all keys matching a pattern. -/
def rdeleteMatching (st : RedisState) (pat : String) : RedisState :=
  { st with entries := st.entries.filter (fun e => ¬ (entryLive st.now e.2.2 && globMatch pat e.1)) }

/-- Redis `TTL k`: `-2` when absent/expired, `-1` when no expiry, else the
remaining seconds. -/
def rttl (st : RedisState) (k : String) : Int :=
  match st.entries.find? (fun e => e.1 == k && entryLive st.now e.2.2) with
  | none => -2
  | some (_, _, none) => -1
  | some (_, _, some e) => (e : Int) - (st.now : Int)

/-! ## `CacheManager` (`backend/services/cache.py`)

The manager is modelled as the backing store plus three failure flags:
`hasClient` is false when `__init__` failed to connect and left
`self.redis_client = None`; `pingOk` is false when the availability probe's
`ping()` raises; `cmdOk` is false when the data command issued inside the
`try` block raises.  Methods return their result paired with the new
manager state; a raised-and-caught backend exception leaves the store
unchanged and yields the degraded return value, exactly as the
`except` branches do. -/

structure CacheManager where
  hasClient : Bool
  pingOk : Bool
  cmdOk : Bool
  st : RedisState
  deriving DecidableEq

/-- Model of `CacheManager.is_available`. -/
def CacheManager.is_available (cm : CacheManager) : Bool := cm.hasClient && cm.pingOk

/-- Advance the logical clock by `d` seconds (passage of real time;
not a method of the Python class). -/
def CacheManager.tick (cm : CacheManager) (d : Nat) : CacheManager :=
  { cm with st := { cm.st with now := cm.st.now + d } }

/-- Model of Python `sep.join(parts)`. -/
def joinSep (sep : String) : List String → String
  | [] => ""
  | [a] => a
  | a :: b :: rest => a ++ sep ++ joinSep sep (b :: rest)

/-- Model of Python `str.lower()` (ASCII case mapping, which covers every
string this repository derives keys from). -/
def pyLower (s : String) : String := String.mk (s.data.map Char.toLower)

/-- Model of `CacheManager._generate_key` (leading underscore dropped):
join the prefix, `str(identifier)` and the extra segments with `":"`. -/
def generate_key (pre : String) (identifier : String) (args : List String) : String :=
  joinSep ":" (pre :: identifier :: args)

/-- Model of `CacheManager._serialize_data`: `json.dumps(data, default=str)`.
On the structurally-encodable values modelled by `JVal` the primary JSON
path always succeeds, so the `pickle` fallback is unreachable. -/
def serialize_data (data : JVal) : String := jDumps data

/-- Model of `CacheManager._deserialize_data`: try `json.loads`; on a decode
error fall back.  The fallback (`pickle.loads(bytes.fromhex(data))`, then
bare `except: return data`) is modelled as the final pass-through — per
spec §4.3 "decode on malformed input returns the raw input unchanged" — a
hex-encoded pickle can only arise from `_serialize_data`'s pickle branch,
which `JVal` inputs never take. -/
def deserialize_data (data : String) : JVal :=
  match jLoads data with
  | some v => v
  | none => .str data

/-- Model of `CacheManager.set`: fail-open `False` when unavailable or the
backend raises; otherwise `SETEX key ttl value` when `ttl` is truthy
(Python `if ttl:` — `None` and `0` are both falsy) and plain `SET`
otherwise. -/
def CacheManager.set (cm : CacheManager) (key : String) (value : JVal) (ttl : Option Nat) :
    Bool × CacheManager :=
  if ¬ cm.is_available then (false, cm)
  else if ¬ cm.cmdOk then (false, cm)
  else
    let sv := serialize_data value
    match ttl with
    | some (t + 1) => (true, { cm with st := rstore cm.st key sv (some (cm.st.now + (t + 1))) })
    | _ => (true, { cm with st := rstore cm.st key sv none })

/-- Model of `CacheManager.get`: fail-open `None`; on a hit, the
deserialized stored string. -/
def CacheManager.get (cm : CacheManager) (key : String) : Option JVal :=
  if ¬ cm.is_available then none
  else if ¬ cm.cmdOk then none
  else
    match rlookup cm.st key with
    | none => none
    | some s => some (deserialize_data s)

/-- Model of `CacheManager.delete`: fail-open `False`; otherwise
`bool(redis.delete(key))`. -/
def CacheManager.delete (cm : CacheManager) (key : String) : Bool × CacheManager :=
  if ¬ cm.is_available then (false, cm)
  else if ¬ cm.cmdOk then (false, cm)
  else
    let (n, st') := rdelete cm.st key
    (n ≠ 0, { cm with st := st' })

/-- Model of `CacheManager.exists` (named `exists_key` here because
`exists` is reserved in Lean): fail-open `False`. -/
def CacheManager.exists_key (cm : CacheManager) (key : String) : Bool :=
  if ¬ cm.is_available then false
  else if ¬ cm.cmdOk then false
  else (rlookup cm.st key).isSome

/-- Model of `CacheManager.clear_pattern`: fail-open `0`; otherwise delete
every key matching the pattern and return how many there were. -/
def CacheManager.clear_pattern (cm : CacheManager) (pat : String) : Nat × CacheManager :=
  if ¬ cm.is_available then (0, cm)
  else if ¬ cm.cmdOk then (0, cm)
  else
    let ks := rkeys cm.st pat
    if ks.isEmpty then (0, cm)
    else (ks.length, { cm with st := rdeleteMatching cm.st pat })

/-- Model of `CacheManager.get_ttl`: fail-open `-1`; otherwise the Redis
`TTL` reply. -/
def CacheManager.get_ttl (cm : CacheManager) (key : String) : Int :=
  if ¬ cm.is_available then -1
  else if ¬ cm.cmdOk then -1
  else rttl cm.st key

/-! ## `PokemonCache` (`backend/services/cache.py`)

The namespace prefixes set in `PokemonCache.__init__`.  (The Python
attribute names end in `_prefix`; here they end in `_ns`.) -/

/-- `self.pokemon_prefix = "pokemon"`. -/
def pokemon_ns : String := "pokemon"

/-- `self.list_prefix = "pokemon_list"`. -/
def list_ns : String := "pokemon_list"

/-- `self.search_prefix = "pokemon_search"`. -/
def search_ns : String := "pokemon_search"

/-- `self.type_prefix = "pokemon_type"`. -/
def type_ns : String := "pokemon_type"

/-- Model of `PokemonCache.cache_pokemon` (`ttl` defaults to 3600 in the
source; it is an explicit argument here). -/
def cache_pokemon (cm : CacheManager) (pokemon_id : Int) (data : JVal) (ttl : Nat) :
    Bool × CacheManager :=
  cm.set (generate_key pokemon_ns (pyStr pokemon_id) []) data (some ttl)

/-- Model of `PokemonCache.get_pokemon`. -/
def get_pokemon (cm : CacheManager) (pokemon_id : Int) : Option JVal :=
  cm.get (generate_key pokemon_ns (pyStr pokemon_id) [])

/-- The list-cache key as computed inside `PokemonCache.cache_pokemon_list`:
the namespace joined with the first 8 hex characters of the MD5 of the
sorted-keys JSON of the parameter map. -/
def cache_list_key (params : JObj) : String :=
  generate_key list_ns ((md5hex (jDumpsSorted (.obj params))).take 8) []

/-- The identically-computed key inside `PokemonCache.get_pokemon_list`
(the source textually repeats the derivation). -/
def get_list_key (params : JObj) : String :=
  generate_key list_ns ((md5hex (jDumpsSorted (.obj params))).take 8) []

/-- Model of `PokemonCache.cache_pokemon_list` (`ttl` defaults to 300). -/
def cache_pokemon_list (cm : CacheManager) (params : JObj) (pokemon_list : JVal) (ttl : Nat) :
    Bool × CacheManager :=
  cm.set (cache_list_key params) pokemon_list (some ttl)

/-- Model of `PokemonCache.get_pokemon_list`. -/
def get_pokemon_list (cm : CacheManager) (params : JObj) : Option JVal :=
  cm.get (get_list_key params)

/-- Model of `PokemonCache.cache_search_results` (`ttl` defaults to 300);
the key uses the lower-cased term. -/
def cache_search_results (cm : CacheManager) (search_term : String) (results : JVal) (ttl : Nat) :
    Bool × CacheManager :=
  cm.set (generate_key search_ns (pyLower search_term) []) results (some ttl)

/-- Model of `PokemonCache.get_search_results`. -/
def get_search_results (cm : CacheManager) (search_term : String) : Option JVal :=
  cm.get (generate_key search_ns (pyLower search_term) [])

/-- Model of `PokemonCache.cache_type_filter` (`ttl` defaults to 300). -/
def cache_type_filter (cm : CacheManager) (pokemon_type : String) (results : JVal) (ttl : Nat) :
    Bool × CacheManager :=
  cm.set (generate_key type_ns (pyLower pokemon_type) []) results (some ttl)

/-- Model of `PokemonCache.get_type_filter`. -/
def get_type_filter (cm : CacheManager) (pokemon_type : String) : Option JVal :=
  cm.get (generate_key type_ns (pyLower pokemon_type) [])

/-- Model of `PokemonCache.clear_pokemon_cache`: Python `if pokemon_id:`
selects the single-key branch by truthiness, so `Some 0` falls through to
the namespace-wide pattern clear exactly like `None`. -/
def clear_pokemon_cache (cm : CacheManager) (pokemon_id : Option Int) : Nat × CacheManager :=
  match pokemon_id with
  | some i =>
    if i ≠ 0 then
      let (b, cm') := cm.delete (generate_key pokemon_ns (pyStr i) [])
      (if b then 1 else 0, cm')
    else cm.clear_pattern (pokemon_ns ++ ":*")
  | none => cm.clear_pattern (pokemon_ns ++ ":*")

/-- Model of `PokemonCache.clear_list_cache`. -/
def clear_list_cache (cm : CacheManager) : Nat × CacheManager :=
  cm.clear_pattern (list_ns ++ ":*")

/-- Model of `PokemonCache.clear_search_cache`. -/
def clear_search_cache (cm : CacheManager) : Nat × CacheManager :=
  cm.clear_pattern (search_ns ++ ":*")

/-- Model of `PokemonCache.clear_type_cache`. -/
def clear_type_cache (cm : CacheManager) : Nat × CacheManager :=
  cm.clear_pattern (type_ns ++ ":*")

/-- Model of `PokemonCache.clear_all_pokemon_cache`: the four namespace
clears in source order, summing the counts. -/
def clear_all_pokemon_cache (cm : CacheManager) : Nat × CacheManager :=
  let (n1, cm1) := clear_pokemon_cache cm none
  let (n2, cm2) := clear_list_cache cm1
  let (n3, cm3) := clear_search_cache cm2
  let (n4, cm4) := clear_type_cache cm3
  (n1 + n2 + n3 + n4, cm4)

/-! ## `PokeAPICache` (`backend/services/cache.py`) -/

/-- `self.pokeapi_prefix = "pokeapi"` (used only by `clear_pokeapi_cache`). -/
def pokeapi_ns : String := "pokeapi"

/-- `self.pokemon_prefix = "pokeapi_pokemon"` (the `PokeAPICache` one). -/
def pokeapi_pokemon_ns : String := "pokeapi_pokemon"

/-- `self.species_prefix = "pokeapi_species"`. -/
def pokeapi_species_ns : String := "pokeapi_species"

/-- `self.evolution_prefix = "pokeapi_evolution"`. -/
def pokeapi_evolution_ns : String := "pokeapi_evolution"

/-- Model of `PokeAPICache.cache_pokemon_data` (`ttl` defaults to 86400). -/
def cache_pokemon_data (cm : CacheManager) (pokemon_id : Int) (data : JVal) (ttl : Nat) :
    Bool × CacheManager :=
  cm.set (generate_key pokeapi_pokemon_ns (pyStr pokemon_id) []) data (some ttl)

/-- Model of `PokeAPICache.get_pokemon_data`. -/
def get_pokemon_data (cm : CacheManager) (pokemon_id : Int) : Option JVal :=
  cm.get (generate_key pokeapi_pokemon_ns (pyStr pokemon_id) [])

/-- Model of `PokeAPICache.cache_species_data` (`ttl` defaults to 86400). -/
def cache_species_data (cm : CacheManager) (pokemon_id : Int) (data : JVal) (ttl : Nat) :
    Bool × CacheManager :=
  cm.set (generate_key pokeapi_species_ns (pyStr pokemon_id) []) data (some ttl)

/-- Model of `PokeAPICache.get_species_data`. -/
def get_species_data (cm : CacheManager) (pokemon_id : Int) : Option JVal :=
  cm.get (generate_key pokeapi_species_ns (pyStr pokemon_id) [])

/-- Model of `PokeAPICache.cache_evolution_chain` (`ttl` defaults to 86400). -/
def cache_evolution_chain (cm : CacheManager) (chain_id : Int) (data : JVal) (ttl : Nat) :
    Bool × CacheManager :=
  cm.set (generate_key pokeapi_evolution_ns (pyStr chain_id) []) data (some ttl)

/-- Model of `PokeAPICache.get_evolution_chain`. -/
def get_evolution_chain (cm : CacheManager) (chain_id : Int) : Option JVal :=
  cm.get (generate_key pokeapi_evolution_ns (pyStr chain_id) [])

/-- Model of `PokeAPICache.clear_pokeapi_cache`: clears the pattern
`"pokeapi:*"` built from `self.pokeapi_prefix`, not from the prefixes the
write methods use. -/
def clear_pokeapi_cache (cm : CacheManager) : Nat × CacheManager :=
  cm.clear_pattern (pokeapi_ns ++ ":*")

/-- Model of the module-level `clear_all_cache`: the Pokemon-side total,
the PokeAPI-side count, and their sum (the dict's `total_keys`). -/
def clear_all_cache (cm : CacheManager) : (Nat × Nat × Nat) × CacheManager :=
  let (np, cm1) := clear_all_pokemon_cache cm
  let (na, cm2) := clear_pokeapi_cache cm1
  ((np, na, np + na), cm2)

/-! ## The list route's cache-parameter map
(`PokemonList.get` in `backend/routes/pokemon_routes.py`) -/

/-- The request-derived inputs of `PokemonList.get` that feed the cache
parameter map. -/
structure ListRequest where
  page : Int
  per_page : Int
  search : Option String
  pokemon_type : Option String
  sort_by : Option String
  deriving DecidableEq

/-- Outcome of the `get_jwt_identity()` call inside the route's
`try`/`except`: either a value (possibly `None` for anonymous callers,
since the route uses `@jwt_required(optional=True)`), or a raised
exception. -/
inductive JwtOutcome : Type where
  | ok (identity : Option Int) : JwtOutcome
  | raised : JwtOutcome
  deriving DecidableEq

/-- Optional string as a JSON value (`None` becomes `null`). -/
def optStr : Option String → JVal
  | none => .null
  | some s => .str s

/-- Optional integer as a JSON value. -/
def optNum : Option Int → JVal
  | none => .null
  | some i => .num i

/-- Model of the `cache_params` dict built by `PokemonList.get`: for
`sort == 'favorites'` the map gains a `user_id` field — unless
`get_jwt_identity()` raises, in which case the `except` branch builds the
identity-free map; every other sort always uses the identity-free map.
Field order is the dict-literal insertion order. -/
def cacheParams (r : ListRequest) (jwt : JwtOutcome) : JObj :=
  if r.sort_by = some "favorites" then
    match jwt with
    | .ok identity =>
      .cons "page" (.num r.page) (.cons "per_page" (.num r.per_page)
        (.cons "search" (optStr r.search) (.cons "type" (optStr r.pokemon_type)
          (.cons "sort" (optStr r.sort_by) (.cons "user_id" (optNum identity) .nil)))))
    | .raised =>
      .cons "page" (.num r.page) (.cons "per_page" (.num r.per_page)
        (.cons "search" (optStr r.search) (.cons "type" (optStr r.pokemon_type)
          (.cons "sort" (optStr r.sort_by) .nil))))
  else
    .cons "page" (.num r.page) (.cons "per_page" (.num r.per_page)
      (.cons "search" (optStr r.search) (.cons "type" (optStr r.pokemon_type)
        (.cons "sort" (optStr r.sort_by) .nil))))

/-- Whether a field list contains a key. -/
def JObj.hasKey : JObj → String → Bool
  | .nil, _ => false
  | .cons k _ tl, key => k == key || tl.hasKey key


/-! ## Decimal printing and parsing: round-trip facts -/

theorem natCharsF_congr : ∀ (n f1 f2 : Nat), n < f1 → n < f2 → natCharsF f1 n = natCharsF f2 n := by
  intro n
  induction n using Nat.strong_induction_on with
  | _ n ih =>
    intro f1 f2 h1 h2
    match f1, f2 with
    | a + 1, b + 1 =>
      simp only [natCharsF]
      by_cases hn : n < 10
      · simp [hn]
      · simp only [if_neg hn]
        have hd : n / 10 < n := Nat.div_lt_self (by omega) (by omega)
        rw [ih (n / 10) hd a b (by omega) (by omega)]

theorem natChars_eq (n : Nat) :
    natChars n = if n < 10 then [hexDigit n] else natChars (n / 10) ++ [hexDigit (n % 10)] := by
  by_cases hn : n < 10
  · conv_lhs => rw [natChars]
    simp only [natCharsF, if_pos hn]
  · conv_lhs => rw [natChars]
    simp only [natCharsF, if_neg hn]
    rw [natCharsF_congr (n / 10) n (n / 10 + 1) (Nat.div_lt_self (by omega) (by omega)) (by omega)]
    rfl

theorem hexDigit_digit {d : Nat} (h : d < 10) :
    (hexDigit d).isDigit = true ∧ (hexDigit d).toNat = 48 + d := by
  interval_cases d <;> exact ⟨rfl, rfl⟩

theorem natChars_head : ∀ n : Nat, ∃ c t, natChars n = c :: t ∧ c.isDigit = true := by
  intro n
  induction n using Nat.strong_induction_on with
  | _ n ih =>
    rw [natChars_eq]
    by_cases hn : n < 10
    · exact ⟨hexDigit n, [], by simp [hn], (hexDigit_digit hn).1⟩
    · have hd : n / 10 < n := Nat.div_lt_self (by omega) (by omega)
      obtain ⟨c, t, he, hc⟩ := ih (n / 10) hd
      exact ⟨c, t ++ [hexDigit (n % 10)], by simp [hn, he], hc⟩

/-- Ten to the number of decimal digits of `n` (proof-side bookkeeping for
the greedy digit parser). -/
def tenPowD (n : Nat) : Nat :=
  if n < 10 then 10 else 10 * tenPowD (n / 10)
  decreasing_by exact Nat.div_lt_self (by omega) (by omega)

theorem parseNatGo_natChars : ∀ (n : Nat) (acc : Nat) (rest : List Char),
    parseNatGo acc (natChars n ++ rest) = parseNatGo (acc * tenPowD n + n) rest := by
  intro n
  induction n using Nat.strong_induction_on with
  | _ n ih =>
    intro acc rest
    rw [natChars_eq]
    by_cases hn : n < 10
    · obtain ⟨h1, h2⟩ := hexDigit_digit hn
      rw [if_pos hn]
      simp only [List.cons_append, List.nil_append, parseNatGo, h1, if_pos, h2]
      rw [tenPowD, if_pos hn]
      congr 1
      omega
    · have hd : n / 10 < n := Nat.div_lt_self (by omega) (by omega)
      obtain ⟨h1, h2⟩ := hexDigit_digit (Nat.mod_lt n (by omega) : n % 10 < 10)
      rw [if_neg hn, List.append_assoc, List.cons_append, List.nil_append, ih (n / 10) hd]
      simp only [parseNatGo, h1, if_pos, h2]
      conv_rhs => rw [tenPowD, if_neg hn]
      congr 1
      have hq : n % 10 = n - 10 * (n / 10) := by omega
      rw [Nat.mul_comm 10 (tenPowD (n / 10)), ← Nat.mul_assoc, Nat.add_mul]
      omega

/-- Whether a character list does not begin with a decimal digit (the
greedy number parser stops exactly at such a continuation). -/
def notDigitLed : List Char → Bool
  | [] => true
  | c :: _ => !c.isDigit

theorem parseNatGo_stop (acc : Nat) (rest : List Char) (h : notDigitLed rest = true) :
    parseNatGo acc rest = (acc, rest) := by
  match rest with
  | [] => rfl
  | c :: cs =>
    simp only [notDigitLed, Bool.not_eq_true'] at h
    simp [parseNatGo, h]

theorem parseNat_natChars (n : Nat) (rest : List Char) (h : notDigitLed rest = true) :
    parseNat (natChars n ++ rest) = some (n, rest) := by
  obtain ⟨c, t, he, hc⟩ := natChars_head n
  rw [he, List.cons_append, parseNat, if_pos hc, ← List.cons_append, ← he,
    parseNatGo_natChars, parseNatGo_stop _ _ h]
  simp

theorem natChars_inj {a b : Nat} (h : natChars a = natChars b) : a = b := by
  have ha := parseNat_natChars a [] rfl
  have hb := parseNat_natChars b [] rfl
  rw [List.append_nil] at ha hb
  rw [h, hb] at ha
  simpa using ha.symm

theorem intChars_inj {a b : Int} (h : intChars a = intChars b) : a = b := by
  obtain ⟨ca, ta, hea, hca⟩ := natChars_head a.natAbs
  obtain ⟨cb, tb, heb, hcb⟩ := natChars_head b.natAbs
  unfold intChars at h
  by_cases ha : a < 0 <;> by_cases hb : b < 0
  · rw [if_pos ha, if_pos hb] at h
    injection h with h1 h2
    have := natChars_inj h2
    omega
  · rw [if_pos ha, if_neg hb, heb] at h
    injection h with h1 h2
    rw [← h1] at hcb
    exact absurd hcb (by decide)
  · rw [if_neg ha, if_pos hb, hea] at h
    injection h with h1 h2
    rw [h1] at hca
    exact absurd hca (by decide)
  · rw [if_neg ha, if_neg hb] at h
    have := natChars_inj h
    omega

theorem pyStr_inj {a b : Int} (h : pyStr a = pyStr b) : a = b :=
  intChars_inj (congrArg String.data h)

/-! ## String-literal round trip -/

theorem hexVal_hexDigit {d : Nat} (h : d < 16) : hexVal (hexDigit d) = some d := by
  interval_cases d <;> rfl

theorem parseStrBody_rt : ∀ (l : List Char) (f : Nat) (rest : List Char), l.length < f →
    parseStrBody f (escStr l ++ '"' :: rest) = some (l, rest) := by
  intro l
  induction l with
  | nil =>
    intro f rest hf
    obtain ⟨f', rfl⟩ : ∃ f', f = f' + 1 := ⟨f - 1, by omega⟩
    simp [escStr, parseStrBody]
  | cons c l' ih =>
    intro f rest hf
    obtain ⟨f', rfl⟩ : ∃ f', f = f' + 1 := ⟨f - 1, by omega⟩
    have hrec := ih f' rest (by simpa using Nat.lt_of_succ_lt_succ hf)
    simp only [escStr, List.append_assoc]
    by_cases h1 : c = '"'
    · subst h1
      simp [escChar, parseStrBody, decodeEsc, hrec]
    · by_cases h2 : c = '\\'
      · subst h2
        simp [escChar, parseStrBody, decodeEsc, hrec]
      · by_cases h3 : c = '\n'
        · subst h3
          simp [escChar, parseStrBody, decodeEsc, hrec]
        · by_cases h4 : c = '\t'
          · subst h4
            simp [escChar, parseStrBody, decodeEsc, hrec]
          · by_cases h5 : c = '\r'
            · subst h5
              simp [escChar, parseStrBody, decodeEsc, hrec]
            · by_cases h6 : c.toNat = 8
              · have hc8 : c = Char.ofNat 8 := by rw [← h6, Char.ofNat_toNat]
                have : escChar c = ['\\', 'b'] := by
                  simp [escChar, h1, h2, h3, h4, h5, h6]
                rw [this]
                simp only [List.cons_append, List.nil_append]
                simp [parseStrBody, decodeEsc, hrec, ← hc8]
                exact hc8.symm
              · by_cases h7 : c.toNat = 12
                · have hc12 : c = Char.ofNat 12 := by rw [← h7, Char.ofNat_toNat]
                  have : escChar c = ['\\', 'f'] := by
                    simp [escChar, h1, h2, h3, h4, h5, h6, h7]
                  rw [this]
                  simp only [List.cons_append, List.nil_append]
                  simp [parseStrBody, decodeEsc, hrec, ← hc12]
                  exact hc12.symm
                · by_cases h8 : c.toNat < 32
                  · have : escChar c =
                        ['\\', 'u', '0', '0', hexDigit (c.toNat / 16), hexDigit (c.toNat % 16)] := by
                      simp [escChar, h1, h2, h3, h4, h5, h6, h7, h8]
                    rw [this]
                    simp only [List.cons_append, List.nil_append]
                    have hv1 : hexVal (hexDigit (c.toNat / 16)) = some (c.toNat / 16) :=
                      hexVal_hexDigit (by omega)
                    have hv2 : hexVal (hexDigit (c.toNat % 16)) = some (c.toNat % 16) :=
                      hexVal_hexDigit (by omega)
                    have hcode : ((0 * 16 + 0) * 16 + c.toNat / 16) * 16 + c.toNat % 16 = c.toNat := by
                      omega
                    have hv0 : hexVal '0' = some 0 := rfl
                    have hcode2 : c.toNat / 16 * 16 + c.toNat % 16 = c.toNat := by omega
                    simp [parseStrBody, decodeEsc, hv0, hv1, hv2, hrec, hcode, Char.ofNat_toNat]
                    rw [hcode2, Char.ofNat_toNat]
                  · have : escChar c = [c] := by
                      simp [escChar, h1, h2, h3, h4, h5, h6, h7, h8]
                    rw [this]
                    simp only [List.cons_append, List.nil_append]
                    simp [parseStrBody, h1, h2, hrec]

/-! ## Parser round trip: fuel measures and head-character facts -/

mutual

/-- Fuel needed by `parseVal` on the printed form of `v`. -/
def needV : JVal → Nat
  | .arr .nil => 1
  | .arr (.cons x xs) => 1 + needA (.cons x xs)
  | .obj .nil => 1
  | .obj (.cons k v tl) => 1 + needO (.cons k v tl)
  | _ => 1

/-- Fuel needed by `parseArrItems` on the printed items. -/
def needA : JArr → Nat
  | .nil => 1
  | .cons x tl => 1 + max (needV x) (needA tl)

/-- Fuel needed by `parseObjItems` on the printed fields. -/
def needO : JObj → Nat
  | .nil => 1
  | .cons _ v tl => 1 + max (needV v) (needO tl)

end

theorem isDigit_ne {c : Char} (h : c.isDigit = true) :
    c ≠ 'n' ∧ c ≠ 't' ∧ c ≠ 'f' ∧ c ≠ '"' ∧ c ≠ '-' ∧ c ≠ '[' ∧ c ≠ '\x7b' ∧
    c ≠ ' ' ∧ c ≠ '\t' ∧ c ≠ '\n' ∧ c ≠ '\r' ∧ c ≠ ']' ∧ c ≠ '\x7d' ∧ c ≠ ',' := by
  refine ⟨?_, ?_, ?_, ?_, ?_, ?_, ?_, ?_, ?_, ?_, ?_, ?_, ?_, ?_⟩ <;>
    (rintro rfl; exact absurd h (by decide))

theorem skipWs_not_ws (c : Char) (cs : List Char)
    (h1 : c ≠ ' ') (h2 : c ≠ '\t') (h3 : c ≠ '\n') (h4 : c ≠ '\r') :
    skipWs (c :: cs) = c :: cs := by
  simp [skipWs, h1, h2, h3, h4]

theorem jChars_head (v : JVal) : ∃ c t, jChars v = c :: t ∧
    c ≠ ' ' ∧ c ≠ '\t' ∧ c ≠ '\n' ∧ c ≠ '\r' ∧ c ≠ ']' ∧ c ≠ '\x7d' ∧ c ≠ ',' := by
  match v with
  | .null => exact ⟨'n', _, rfl, by decide⟩
  | .bool true => exact ⟨'t', _, rfl, by decide⟩
  | .bool false => exact ⟨'f', _, rfl, by decide⟩
  | .str s => exact ⟨'"', _, rfl, by decide⟩
  | .arr .nil => exact ⟨'[', _, rfl, by decide⟩
  | .arr (.cons x xs) => exact ⟨'[', _, rfl, by decide⟩
  | .obj .nil => exact ⟨'\x7b', _, rfl, by decide⟩
  | .obj (.cons k w tl) => exact ⟨'\x7b', _, rfl, by decide⟩
  | .num i =>
    show ∃ c t, intChars i = c :: t ∧ _
    by_cases hi : i < 0
    · exact ⟨'-', _, by rw [intChars, if_pos hi], by decide⟩
    · obtain ⟨c, t, he, hc⟩ := natChars_head i.natAbs
      obtain ⟨_, _, _, _, _, _, _, w1, w2, w3, w4, w5, w6, w7⟩ := isDigit_ne hc
      exact ⟨c, t, by rw [intChars, if_neg hi, he], w1, w2, w3, w4, w5, w6, w7⟩

theorem skipWs_jChars (v : JVal) (rest : List Char) :
    skipWs (jChars v ++ rest) = jChars v ++ rest := by
  obtain ⟨c, t, he, h1, h2, h3, h4, _, _, _⟩ := jChars_head v
  rw [he, List.cons_append, skipWs_not_ws c _ h1 h2 h3 h4]

theorem escStr_len (l : List Char) : l.length ≤ (escStr l).length := by
  induction l with
  | nil => simp [escStr]
  | cons c cs ih =>
    have hc : 1 ≤ (escChar c).length := by
      unfold escChar
      split_ifs <;> simp
    simp only [escStr, List.length_append, List.length_cons]
    omega

theorem dropPre_append (l rest : List Char) : dropPre l (l ++ rest) = some rest := by
  induction l with
  | nil => rfl
  | cons c cs ih => simp [dropPre, ih]

theorem notDigitLed_arrTail (tl : JArr) (rest : List Char) :
    notDigitLed (jArrChars tl ++ ']' :: rest) = true := by
  cases tl <;> simp [jArrChars, notDigitLed]

theorem notDigitLed_objTail (tl : JObj) (rest : List Char) :
    notDigitLed (jObjChars tl ++ '\x7d' :: rest) = true := by
  cases tl <;> simp [jObjChars, notDigitLed]

theorem skipWs_space (z : List Char) : skipWs (' ' :: z) = skipWs z := by
  simp [skipWs]

theorem needV_pos (v : JVal) : 1 ≤ needV v := by
  match v with
  | .null | .bool _ | .num _ | .str _ => simp [needV]
  | .arr .nil | .obj .nil => simp [needV]
  | .arr (.cons x xs) => simp [needV]
  | .obj (.cons k v tl) => simp [needV]


/-! ## Parser round trip: `parseVal` inverts `jChars` -/

theorem jval_sizeOf_pos (v : JVal) : 1 ≤ sizeOf v := by
  cases v <;> simp

/-- Joint round-trip statement for values, array items and object fields,
proved by induction on a size bound `B`. -/
theorem rt_main : ∀ B : Nat,
    (∀ v : JVal, sizeOf v ≤ B → ∀ (n : Nat) (rest : List Char), needV v ≤ n →
      notDigitLed rest = true → parseVal n (jChars v ++ rest) = some (v, rest)) ∧
    (∀ (x : JVal) (tl : JArr), 1 + sizeOf x + sizeOf tl ≤ B → ∀ (n : Nat) (rest : List Char),
      needA (.cons x tl) ≤ n → notDigitLed rest = true →
      parseArrItems n (jChars x ++ (jArrChars tl ++ (']' :: rest)))
        = some (.arr (.cons x tl), rest)) ∧
    (∀ (k : String) (v : JVal) (tl : JObj), 1 + sizeOf v + sizeOf tl ≤ B →
      ∀ (n : Nat) (rest : List Char), needO (.cons k v tl) ≤ n → notDigitLed rest = true →
      parseObjItems n (strLit k ++ (':' :: ' ' :: jChars v ++ (jObjChars tl ++ ('\x7d' :: rest))))
        = some (.obj (.cons k v tl), rest)) := by
  intro B
  induction B with
  | zero =>
    refine ⟨?_, ?_, ?_⟩
    · intro v hsz
      exact absurd hsz (by have := jval_sizeOf_pos v; omega)
    · intro x tl hsz
      exact absurd hsz (by omega)
    · intro k v tl hsz
      exact absurd hsz (by omega)
  | succ B ih =>
    obtain ⟨ihV, ihA, ihO⟩ := ih
    refine ⟨?_, ?_, ?_⟩
    · intro v hsz n rest hn hrest
      obtain ⟨m, rfl⟩ : ∃ m, n = m + 1 := ⟨n - 1, by have := needV_pos v; omega⟩
      cases v with
      | null => simp [jChars, parseVal, dropPre]
      | bool b => cases b <;> simp [jChars, parseVal, dropPre]
      | num i =>
        by_cases hi : i < 0
        · have hj : jChars (.num i) = '-' :: natChars i.natAbs := by
            rw [jChars, intChars, if_pos hi]
          rw [hj, List.cons_append]
          simp only [parseVal]
          rw [if_neg (by decide : ¬ ('-' = 'n')), if_neg (by decide : ¬ ('-' = 't')),
            if_neg (by decide : ¬ ('-' = 'f')), if_neg (by decide : ¬ ('-' = '"'))]
          simp only [if_true]
          rw [parseNat_natChars _ _ hrest]
          simp only [Option.some.injEq, Prod.mk.injEq, JVal.num.injEq]
          exact ⟨by omega, trivial⟩
        · obtain ⟨c, t, he, hc⟩ := natChars_head i.natAbs
          obtain ⟨d1, d2, d3, d4, d5, _, _, _, _, _, _, _, _, _⟩ := isDigit_ne hc
          have hj : jChars (.num i) = c :: t := by rw [jChars, intChars, if_neg hi, he]
          rw [hj, List.cons_append]
          simp only [parseVal]
          rw [if_neg d1, if_neg d2, if_neg d3, if_neg d4, if_neg d5, if_pos hc,
            ← List.cons_append, ← he, parseNat_natChars _ _ hrest]
          simp only [Option.some.injEq, Prod.mk.injEq, JVal.num.injEq]
          exact ⟨by omega, trivial⟩
      | str s =>
        have hj : jChars (.str s) ++ rest = '"' :: (escStr s.data ++ '"' :: rest) := by
          simp [jChars, strLit]
        rw [hj]
        simp only [parseVal]
        rw [if_neg (by decide : ¬ ('"' = 'n')), if_neg (by decide : ¬ ('"' = 't')),
          if_neg (by decide : ¬ ('"' = 'f'))]
        simp only [if_true]
        rw [parseStrBody_rt s.data _ rest
          (by have := escStr_len s.data
              simp only [List.length_append, List.length_cons]
              omega)]
      | arr xs =>
        cases xs with
        | nil => simp [jChars, parseVal, skipWs]
        | cons x xs2 =>
          have hne : needA (.cons x xs2) ≤ m := by simp only [needV] at hn; omega
          have hszA : 1 + sizeOf x + sizeOf xs2 ≤ B := by simp at hsz; omega
          have hj : jChars (.arr (.cons x xs2)) ++ rest
              = '[' :: (jChars x ++ (jArrChars xs2 ++ (']' :: rest))) := by
            simp [jChars]
          rw [hj]
          simp only [parseVal]
          rw [if_neg (by decide : ¬ ('[' = 'n')), if_neg (by decide : ¬ ('[' = 't')),
            if_neg (by decide : ¬ ('[' = 'f')), if_neg (by decide : ¬ ('[' = '"')),
            if_neg (by decide : ¬ ('[' = '-'))]
          simp only [if_true, Char.isDigit, reduceIte]
          rw [skipWs_jChars]
          obtain ⟨c0, t0, he0, w1, w2, w3, w4, w5, w6, w7⟩ := jChars_head x
          rw [he0, List.cons_append]
          simp only [if_neg w5]
          rw [← List.cons_append, ← he0]
          exact ihA x xs2 hszA m rest hne hrest
      | obj fs =>
        cases fs with
        | nil => simp [jChars, parseVal, skipWs]
        | cons k w tl =>
          have hne : needO (.cons k w tl) ≤ m := by simp only [needV] at hn; omega
          have hszO : 1 + sizeOf w + sizeOf tl ≤ B := by simp at hsz; omega
          have hj : jChars (.obj (.cons k w tl)) ++ rest
              = '\x7b' :: (strLit k ++ (':' :: ' ' :: jChars w ++ (jObjChars tl ++ ('\x7d' :: rest)))) := by
            simp [jChars]
          rw [hj]
          simp only [parseVal]
          rw [if_neg (by decide : ¬ ('\x7b' = 'n')), if_neg (by decide : ¬ ('\x7b' = 't')),
            if_neg (by decide : ¬ ('\x7b' = 'f')), if_neg (by decide : ¬ ('\x7b' = '"')),
            if_neg (by decide : ¬ ('\x7b' = '-')), if_neg (by decide : ¬ ('\x7b' = '['))]
          simp only [if_true, Char.isDigit, reduceIte]
          rw [strLit, List.cons_append,
            skipWs_not_ws '"' _ (by decide) (by decide) (by decide) (by decide)]
          simp only [if_neg (by decide : ¬ ('"' = '\x7d')), reduceIte]
          rw [← List.cons_append, ← strLit]
          exact ihO k w tl hszO m rest hne hrest
    · intro x tl hsz n rest hn hrest
      obtain ⟨m, rfl⟩ : ∃ m, n = m + 1 := ⟨n - 1, by simp [needA] at hn; omega⟩
      have hvx : needV x ≤ m := by simp [needA] at hn; omega
      have hszx : sizeOf x ≤ B := by omega
      simp only [parseArrItems]
      rw [ihV x hszx m _ hvx (notDigitLed_arrTail tl rest)]
      cases tl with
      | nil =>
        simp only [jArrChars, List.nil_append]
        rw [skipWs_not_ws ']' _ (by decide) (by decide) (by decide) (by decide)]
        simp
      | cons y tl2 =>
        have hne : needA (.cons y tl2) ≤ m := by simp [needA] at hn ⊢; omega
        have hszA : 1 + sizeOf y + sizeOf tl2 ≤ B := by
          have := jval_sizeOf_pos x
          simp at hsz
          omega
        have hja : jArrChars (.cons y tl2) ++ (']' :: rest)
            = ',' :: (' ' :: (jChars y ++ (jArrChars tl2 ++ (']' :: rest)))) := by
          simp [jArrChars]
        simp only [hja]
        rw [skipWs_not_ws ',' _ (by decide) (by decide) (by decide) (by decide)]
        dsimp only
        rw [if_neg (by decide : ¬ (',' = ']'))]
        simp only [if_true, reduceIte]
        rw [skipWs_space, skipWs_jChars, ihA y tl2 hszA m rest hne hrest]
    · intro k v tl hsz n rest hn hrest
      obtain ⟨m, rfl⟩ : ∃ m, n = m + 1 := ⟨n - 1, by simp [needO] at hn; omega⟩
      have hvv : needV v ≤ m := by simp [needO] at hn; omega
      have hszv : sizeOf v ≤ B := by omega
      rw [strLit, List.cons_append]
      simp only [parseObjItems]
      simp only [if_true, reduceIte]
      have harr : (escStr k.data ++ ['"']) ++ (':' :: ' ' :: jChars v ++ (jObjChars tl ++ ('\x7d' :: rest)))
          = escStr k.data ++ '"' :: (':' :: ' ' :: jChars v ++ (jObjChars tl ++ ('\x7d' :: rest))) := by
        simp
      rw [harr, parseStrBody_rt k.data _ _
        (by have := escStr_len k.data
            simp only [List.length_append, List.length_cons]
            omega)]
      dsimp only
      simp only [List.cons_append]
      rw [skipWs_not_ws ':' _ (by decide) (by decide) (by decide) (by decide)]
      dsimp only
      simp only [if_true, reduceIte]
      rw [skipWs_space, skipWs_jChars, ihV v hszv m _ hvv (notDigitLed_objTail tl rest)]
      dsimp only
      cases tl with
      | nil =>
        simp only [jObjChars, List.nil_append]
        rw [skipWs_not_ws '\x7d' _ (by decide) (by decide) (by decide) (by decide)]
        simp
      | cons k2 v2 tl2 =>
        have hne : needO (.cons k2 v2 tl2) ≤ m := by simp [needO] at hn ⊢; omega
        have hszO : 1 + sizeOf v2 + sizeOf tl2 ≤ B := by
          have := jval_sizeOf_pos v
          simp at hsz
          omega
        have hjo : jObjChars (.cons k2 v2 tl2) ++ ('\x7d' :: rest)
            = ',' :: (' ' :: (strLit k2 ++ (':' :: ' ' :: jChars v2 ++ (jObjChars tl2 ++ ('\x7d' :: rest))))) := by
          simp [jObjChars]
        simp only [hjo]
        rw [skipWs_not_ws ',' _ (by decide) (by decide) (by decide) (by decide)]
        dsimp only
        rw [if_neg (by decide : ¬ (',' = '\x7d'))]
        simp only [if_true, reduceIte]
        rw [skipWs_space]
        rw [strLit, List.cons_append,
          skipWs_not_ws '"' _ (by decide) (by decide) (by decide) (by decide),
          ← List.cons_append, ← strLit]
        rw [ihO k2 v2 tl2 hszO m rest hne hrest]

/-- Round trip for a single value, at any adequate fuel. -/
theorem rtV (v : JVal) (n : Nat) (rest : List Char) (hn : needV v ≤ n)
    (hrest : notDigitLed rest = true) :
    parseVal n (jChars v ++ rest) = some (v, rest) :=
  (rt_main (sizeOf v)).1 v le_rfl n rest hn hrest

theorem jChars_len_pos (v : JVal) : 1 ≤ (jChars v).length := by
  obtain ⟨c, t, he, _⟩ := jChars_head v
  simp [he]

/-- The fuel `jLoads` supplies (input length + 1) is adequate: joint bound
on the `need` measures by the printed lengths. -/
theorem need_le_len : ∀ B : Nat,
    (∀ v : JVal, sizeOf v ≤ B → needV v ≤ (jChars v).length) ∧
    (∀ (x : JVal) (tl : JArr), 1 + sizeOf x + sizeOf tl ≤ B →
      needA (.cons x tl) ≤ (jChars x).length + (jArrChars tl).length + 1) ∧
    (∀ (k : String) (v : JVal) (tl : JObj), 1 + sizeOf v + sizeOf tl ≤ B →
      needO (.cons k v tl) ≤ (strLit k).length + 2 + (jChars v).length + (jObjChars tl).length + 1) := by
  intro B
  induction B with
  | zero =>
    refine ⟨fun v hsz => absurd hsz (by have := jval_sizeOf_pos v; omega),
      fun x tl hsz => absurd hsz (by omega),
      fun k v tl hsz => absurd hsz (by omega)⟩
  | succ B ih =>
    obtain ⟨ihV, ihA, ihO⟩ := ih
    refine ⟨?_, ?_, ?_⟩
    · intro v hsz
      cases v with
      | null => simp [needV, jChars]
      | bool b => cases b <;> simp [needV, jChars]
      | num i => have := jChars_len_pos (.num i); simp [needV]; omega
      | str s => have := jChars_len_pos (.str s); simp [needV]; omega
      | arr xs =>
        cases xs with
        | nil => simp [needV, jChars]
        | cons x xs2 =>
          have hA := ihA x xs2 (by simp at hsz; omega)
          simp only [needV, jChars, List.length_cons, List.length_append]
          simp at hA ⊢
          omega
      | obj fs =>
        cases fs with
        | nil => simp [needV, jChars]
        | cons k w tl =>
          have hO := ihO k w tl (by simp at hsz; omega)
          simp only [needV, jChars, List.length_cons, List.length_append]
          simp at hO ⊢
          omega
    · intro x tl hsz
      have hx := ihV x (by have := jval_sizeOf_pos x; omega)
      cases tl with
      | nil =>
        have := jChars_len_pos x
        simp [needA, jArrChars]
        omega
      | cons y tl2 =>
        have hA := ihA y tl2 (by have := jval_sizeOf_pos x; simp at hsz; omega)
        simp only [needA, jArrChars, List.length_cons, List.length_append] at *
        omega
    · intro k v tl hsz
      have hv := ihV v (by have := jval_sizeOf_pos v; omega)
      cases tl with
      | nil =>
        have := jChars_len_pos v
        simp [needO, jObjChars]
        omega
      | cons k2 v2 tl2 =>
        have hO := ihO k2 v2 tl2 (by have := jval_sizeOf_pos v; simp at hsz; omega)
        simp only [needO, jObjChars, List.length_cons, List.length_append] at *
        omega

/-- `json.loads` inverts `json.dumps` on every modelled value. -/
theorem jLoads_jDumps (v : JVal) : jLoads (jDumps v) = some v := by
  have hd : (jDumps v).data = jChars v := rfl
  have hsw : skipWs (jChars v) = jChars v := by
    have := skipWs_jChars v []
    simpa using this
  have hfuel : needV v ≤ (jChars v).length + 1 := by
    have := (need_le_len (sizeOf v)).1 v le_rfl
    omega
  have hp : parseVal ((jChars v).length + 1) (jChars v ++ []) = some (v, []) :=
    rtV v _ [] hfuel rfl
  rw [List.append_nil] at hp
  rw [jLoads, hd, hsw, hp]
  simp [skipWs]

/-- Model of `_deserialize_data ∘ _serialize_data` being the identity on
structurally-encodable values (shared helper). -/
theorem serializer_rt (v : JVal) : deserialize_data (serialize_data v) = v := by
  rw [deserialize_data, serialize_data, jLoads_jDumps v]

/-! ## Store lemmas -/

theorem find?_filter_eq {α : Type} (p q : α → Bool) (l : List α)
    (h : ∀ e, q e = false → p e = false) :
    List.find? p (l.filter q) = List.find? p l := by
  induction l with
  | nil => rfl
  | cons e l' ih =>
    by_cases hq : q e = true
    · rw [List.filter_cons_of_pos hq]
      by_cases hp : p e = true
      · rw [List.find?_cons_of_pos _ hp, List.find?_cons_of_pos _ hp]
      · rw [List.find?_cons_of_neg _ (by simpa using hp),
          List.find?_cons_of_neg _ (by simpa using hp), ih]
    · have hq' : q e = false := by simpa using hq
      rw [List.filter_cons_of_neg (by simp [hq']), ih,
        List.find?_cons_of_neg _ (by simp [h e hq'])]

theorem rlookup_rstore_self (st : RedisState) (k v : String) (exp : Option Nat)
    (hlive : entryLive st.now exp = true) :
    rlookup (rstore st k v exp) k = some v := by
  simp [rlookup, rstore, List.find?_cons, hlive]

theorem rlookup_rstore_other (st : RedisState) (k v : String) (exp : Option Nat)
    (k2 : String) (hne : k2 ≠ k) :
    rlookup (rstore st k v exp) k2 = rlookup st k2 := by
  have hhead : (k == k2 && entryLive st.now exp) = false := by
    simp [beq_eq_false_iff_ne, Ne.symm hne]
  rw [rlookup, rstore]
  simp only []
  rw [List.find?_cons_of_neg _ (by simp [hhead]), find?_filter_eq]
  · rfl
  · intro e hq
    have : e.1 = k := by simpa using hq
    simp [this, beq_eq_false_iff_ne, Ne.symm hne]

theorem rlookup_rdeleteMatching (st : RedisState) (pat k : String)
    (h : globMatch pat k = false) :
    rlookup (rdeleteMatching st pat) k = rlookup st k := by
  rw [rlookup, rdeleteMatching]
  simp only []
  rw [find?_filter_eq]
  · rfl
  · intro e hq
    simp only [Bool.not_eq_false'] at hq
    by_cases he : e.1 = k
    · rw [he] at hq
      simp [h] at hq
    · simp [beq_eq_false_iff_ne, he]

theorem rlookup_rdelete_other (st : RedisState) (k k2 : String) (hne : k2 ≠ k) :
    rlookup (rdelete st k).2 k2 = rlookup st k2 := by
  rw [rlookup, rdelete]
  simp only []
  rw [find?_filter_eq]
  · rfl
  · intro e hq
    have : e.1 = k := by simpa using hq
    simp [this, beq_eq_false_iff_ne, Ne.symm hne]

/-! ## Composite cache-manager lemmas -/

theorem set_avail (cm : CacheManager) (k : String) (v : JVal) (t : Nat)
    (h1 : cm.hasClient = true) (h2 : cm.pingOk = true) (h3 : cm.cmdOk = true) :
    cm.set k v (some (t + 1)) =
      (true, { cm with st := rstore cm.st k (serialize_data v) (some (cm.st.now + (t + 1))) }) := by
  rw [CacheManager.set]
  simp [CacheManager.is_available, h1, h2, h3]

theorem get_avail (cm : CacheManager) (k : String)
    (h1 : cm.hasClient = true) (h2 : cm.pingOk = true) (h3 : cm.cmdOk = true) :
    cm.get k = (match rlookup cm.st k with
      | none => none
      | some s => some (deserialize_data s)) := by
  rw [CacheManager.get]
  simp [CacheManager.is_available, h1, h2, h3]

theorem get_set_same (cm : CacheManager) (k : String) (v : JVal) (t : Nat)
    (h1 : cm.hasClient = true) (h2 : cm.pingOk = true) (h3 : cm.cmdOk = true) :
    CacheManager.get ((cm.set k v (some (t + 1))).2) k = some v := by
  have hlive : entryLive cm.st.now (some (cm.st.now + (t + 1))) = true := by simp [entryLive]
  rw [set_avail cm k v t h1 h2 h3]
  dsimp only
  rw [CacheManager.get]
  simp [CacheManager.is_available, h1, h2, h3, rlookup_rstore_self _ _ _ _ hlive, serializer_rt]

/-! ## Glob-matching characterization for trailing-star patterns -/

theorem decide_eq_beq (a d : Char) : decide (a = d) = (a == d) := by
  by_cases h : a = d <;> simp [h]

theorem globMF_congr : ∀ (N f1 f2 : Nat) (p s : List Char), p.length + s.length ≤ N →
    p.length + s.length < f1 → p.length + s.length < f2 → globMF f1 p s = globMF f2 p s := by
  intro N
  induction N with
  | zero =>
    intro f1 f2 p s hN h1 h2
    obtain ⟨a, rfl⟩ : ∃ a, f1 = a + 1 := ⟨f1 - 1, by omega⟩
    obtain ⟨b, rfl⟩ : ∃ b, f2 = b + 1 := ⟨f2 - 1, by omega⟩
    match p, s with
    | [], [] => rfl
    | [], _ :: _ => simp at hN
    | _ :: _, _ => simp at hN
  | succ N ihN =>
    intro f1 f2 p s hN h1 h2
    obtain ⟨a, rfl⟩ : ∃ a, f1 = a + 1 := ⟨f1 - 1, by omega⟩
    obtain ⟨b, rfl⟩ : ∃ b, f2 = b + 1 := ⟨f2 - 1, by omega⟩
    cases p with
    | nil => simp [globMF]
    | cons c ps =>
      simp only [globMF]
      simp only [List.length_cons] at hN h1 h2
      by_cases hc : c = '*'
      · simp only [if_pos hc]
        rw [ihN a b ps s (by omega) (by omega) (by omega)]
        cases s with
        | nil => rfl
        | cons d ds =>
          dsimp only
          simp only [List.length_cons] at hN h1 h2
          rw [ihN a b (c :: ps) ds (by (try simp only [List.length_cons]); omega)
            (by (try simp only [List.length_cons]); omega) (by (try simp only [List.length_cons]); omega)]
      · simp only [if_neg hc]
        cases s with
        | nil => rfl
        | cons d ds =>
          dsimp only
          simp only [List.length_cons] at hN h1 h2
          rw [ihN a b ps ds (by omega) (by omega) (by omega)]

theorem globM_unfold_nil (s : List Char) : globM [] s = s.isEmpty := rfl

theorem globM_unfold_star (ps s : List Char) :
    globM ('*' :: ps) s = (globM ps s ||
      (match s with
       | [] => false
       | _ :: ds => globM ('*' :: ps) ds)) := by
  have step : globM ('*' :: ps) s
      = (globMF (('*' :: ps).length + s.length) ps s ||
        (match s with
         | [] => false
         | _ :: cs => globMF (('*' :: ps).length + s.length) ('*' :: ps) cs)) := rfl
  rw [step]
  congr 1
  · rw [globM]
    exact globMF_congr (('*' :: ps).length + s.length) _ _ ps s
      (by (try simp only [List.length_cons]); omega)
      (by (try simp only [List.length_cons]); omega) (by omega)
  · cases s with
    | nil => rfl
    | cons d ds =>
      dsimp only
      rw [globM]
      exact globMF_congr (('*' :: ps).length + (d :: ds).length) _ _ ('*' :: ps) ds
        (by (try simp only [List.length_cons]); omega)
        (by (try simp only [List.length_cons]); omega)
        (by (try simp only [List.length_cons]); omega)

theorem globM_unfold_lit (c : Char) (ps s : List Char) (hc : c ≠ '*') :
    globM (c :: ps) s = (match s with
      | [] => false
      | d :: ds => (c = '?' || c = d) && globM ps ds) := by
  have step : globM (c :: ps) s
      = (if c = '*' then
          (globMF ((c :: ps).length + s.length) ps s ||
            (match s with
             | [] => false
             | _ :: cs => globMF ((c :: ps).length + s.length) (c :: ps) cs))
        else
          (match s with
           | [] => false
           | d :: ds => (c = '?' || c = d) && globMF ((c :: ps).length + s.length) ps ds)) := rfl
  rw [step, if_neg hc]
  cases s with
  | nil => rfl
  | cons d ds =>
    dsimp only
    congr 1
    rw [globM]
    exact globMF_congr ((c :: ps).length + (d :: ds).length) _ _ ps ds
      (by simp only [List.length_cons]; omega)
      (by simp only [List.length_cons]; omega)
      (by omega)

theorem globM_star_all : ∀ s : List Char, globM ['*'] s = true := by
  intro s
  induction s with
  | nil => rfl
  | cons d ds ih =>
    rw [globM_unfold_star]
    dsimp only
    rw [ih]
    simp

theorem globM_trailing : ∀ (lits s : List Char),
    (lits.all fun c => !(c = '*' || c = '?')) = true →
    globM (lits ++ ['*']) s = lits.isPrefixOf s := by
  intro lits
  induction lits with
  | nil =>
    intro s _
    simp only [List.nil_append]
    rw [globM_star_all s]
    simp [List.isPrefixOf]
  | cons a lits' ih =>
    intro s hmeta
    simp only [List.all_cons, Bool.and_eq_true, Bool.not_eq_true', Bool.or_eq_false_iff,
      decide_eq_false_iff_not] at hmeta
    obtain ⟨⟨ha1, ha2⟩, hall⟩ := hmeta
    rw [List.cons_append, globM_unfold_lit a _ s ha1]
    cases s with
    | nil => rfl
    | cons d ds =>
      dsimp only
      rw [ih ds hall]
      simp only [List.isPrefixOf]
      have h2 : decide (a = '?') = false := by simp [ha2]
      rw [h2, Bool.false_or, decide_eq_beq]

theorem isPrefixOf_append_false (a b t : List Char)
    (h1 : a.isPrefixOf b = false) (h2 : b.isPrefixOf a = false) :
    a.isPrefixOf (b ++ t) = false := by
  by_contra hx
  have hx' : a.isPrefixOf (b ++ t) = true := by
    cases hab : a.isPrefixOf (b ++ t) with
    | true => rfl
    | false => exact absurd hab hx
  have hpre : a <+: b ++ t := List.isPrefixOf_iff_prefix.mp hx'
  have hb : b <+: b ++ t := List.prefix_append b t
  rcases List.prefix_or_prefix_of_prefix hpre hb with hcase | hcase
  · rw [List.isPrefixOf_iff_prefix.mpr hcase] at h1
    exact absurd h1 (by simp)
  · rw [List.isPrefixOf_iff_prefix.mpr hcase] at h2
    exact absurd h2 (by simp)

/-- The two-segment special case of `generate_key` used by every caller in
the repository. -/
theorem generate_key_two (ns ident : String) :
    generate_key ns ident [] = ns ++ ":" ++ ident := by
  simp [generate_key, joinSep]

/-- A trailing-star pattern built from one namespace never matches a key of
a different namespace: the generic cross-namespace lemma. -/
theorem glob_cross (nsA nsB t : String)
    (h0 : ((nsA ++ ":").data.all fun c => !(c = '*' || c = '?')) = true)
    (h1 : List.isPrefixOf ((nsA ++ ":").data) ((nsB ++ ":").data) = false)
    (h2 : List.isPrefixOf ((nsB ++ ":").data) ((nsA ++ ":").data) = false) :
    globMatch (nsA ++ ":*") (nsB ++ ":" ++ t) = false := by
  have hp : (nsA ++ ":*").data = (nsA ++ ":").data ++ ['*'] := by
    have e1 : nsA ++ ":*" = (nsA ++ ":") ++ "*" := by
      rw [String.append_assoc]
      rfl
    rw [e1, String.data_append]
  have hk : (nsB ++ ":" ++ t).data = (nsB ++ ":").data ++ t.data := String.data_append _ _
  rw [globMatch, hp, hk, globM_trailing _ _ h0]
  exact isPrefixOf_append_false _ _ _ h1 h2

theorem get_clear_pattern_other (cm : CacheManager) (pat k : String)
    (h1 : cm.hasClient = true) (h2 : cm.pingOk = true) (h3 : cm.cmdOk = true)
    (h : globMatch pat k = false) :
    CacheManager.get ((cm.clear_pattern pat).2) k = CacheManager.get cm k := by
  rw [CacheManager.clear_pattern]
  simp only [CacheManager.is_available, h1, h2, h3, Bool.and_self, not_true_eq_false, if_false,
    Bool.not_true]
  by_cases hks : (rkeys cm.st pat).isEmpty
  · simp [hks]
  · simp only [hks, if_false, Bool.false_eq_true]
    rw [CacheManager.get, CacheManager.get]
    simp only [CacheManager.is_available, h1, h2, h3]
    rw [rlookup_rdeleteMatching _ _ _ h]

/-! ## Claim C7 — serializer round trip -/

/-- C7: for every structurally-encodable value `V` (null, booleans,
numbers, strings, and nested sequences/maps thereof),
`_deserialize_data(_serialize_data(V)) == V`. -/
theorem c7_serializer_round_trip (v : JVal) :
    deserialize_data (serialize_data v) = v :=
  serializer_rt v

/-! ## Claim C10 — `_generate_key` is not injective -/

/-- C10: `_generate_key` joins namespace, identifier and extra segments
with `":"` and no escaping, so distinct argument tuples can yield the same
key — `('pokemon', '1:2')` and `('pokemon', '1', '2')` both give
`"pokemon:1:2"` — and a string identifier flows into the key verbatim,
including `':'` and the pattern wildcard `'*'`. -/
theorem c10_generate_key_not_injective :
    generate_key "pokemon" "1:2" [] = generate_key "pokemon" "1" ["2"] ∧
    generate_key "pokemon" "1:2" [] = "pokemon:1:2" ∧
    (∀ ns ident : String, generate_key ns ident [] = ns ++ ":" ++ ident) ∧
    generate_key "pokemon" "a*b" [] = "pokemon:a*b" ∧
    ("1:2", ([] : List String)) ≠ ("1", ["2"]) :=
  ⟨rfl, rfl, generate_key_two, rfl, by decide⟩

/-! ## Claim C1 — fail-open degradation -/

/-- C1: when the backing store is unavailable (no client, the availability
ping raises, or the data command itself raises), every `CacheManager`
method returns its degraded value instead of raising — `get` returns
`none`, `set`/`delete` return `false`, `exists` returns `false`,
`clear_pattern` returns `0`, `get_ttl` returns `-1` — for every key, value,
TTL and pattern, and the store is left unchanged. -/
theorem c1_fail_open (cm : CacheManager) (key : String) (v : JVal) (ttl : Option Nat)
    (pat : String)
    (h : cm.hasClient = false ∨ cm.pingOk = false ∨ cm.cmdOk = false) :
    (cm.set key v ttl).1 = false ∧ (cm.set key v ttl).2 = cm ∧
    cm.get key = none ∧
    (cm.delete key).1 = false ∧ (cm.delete key).2 = cm ∧
    cm.exists_key key = false ∧
    (cm.clear_pattern pat).1 = 0 ∧ (cm.clear_pattern pat).2 = cm ∧
    cm.get_ttl key = -1 := by
  rcases h with h | h | h <;>
    · rw [CacheManager.set, CacheManager.get, CacheManager.delete, CacheManager.exists_key,
        CacheManager.clear_pattern, CacheManager.get_ttl]
      simp [CacheManager.is_available, h]

/-- Witness for C1 at a concrete manager with no client. -/
theorem c1_fail_open_witness :
    ((CacheManager.mk false true true (RedisState.mk 0 [])).set "pokemon:1" .null (some 60)).1
        = false ∧
    ((CacheManager.mk false true true (RedisState.mk 0 [])).set "pokemon:1" .null (some 60)).2
        = CacheManager.mk false true true (RedisState.mk 0 []) ∧
    (CacheManager.mk false true true (RedisState.mk 0 [])).get "pokemon:1" = none ∧
    ((CacheManager.mk false true true (RedisState.mk 0 [])).delete "pokemon:1").1 = false ∧
    ((CacheManager.mk false true true (RedisState.mk 0 [])).delete "pokemon:1").2
        = CacheManager.mk false true true (RedisState.mk 0 []) ∧
    (CacheManager.mk false true true (RedisState.mk 0 [])).exists_key "pokemon:1" = false ∧
    ((CacheManager.mk false true true (RedisState.mk 0 [])).clear_pattern "pokemon:*").1 = 0 ∧
    ((CacheManager.mk false true true (RedisState.mk 0 [])).clear_pattern "pokemon:*").2
        = CacheManager.mk false true true (RedisState.mk 0 []) ∧
    (CacheManager.mk false true true (RedisState.mk 0 [])).get_ttl "pokemon:1" = -1 :=
  c1_fail_open (CacheManager.mk false true true (RedisState.mk 0 []))
    "pokemon:1" .null (some 60) "pokemon:*" (Or.inl rfl)

/-! ## Claim C2 — `user_id` in the favorites list-cache parameter map -/

theorem optNum_inj {a b : Option Int} (h : optNum a = optNum b) : a = b := by
  cases a <;> cases b <;> simp_all [optNum]

/-- C2 counterexample: a `sort=favorites` request whose identity lookup
raises takes the `except` branch, and its cache parameter map does NOT
contain `user_id` — refuting "for every list request with sort =
'favorites', the cache parameter map contains the user_id field". -/
theorem c2_counterexample :
    (ListRequest.mk 1 20 none none (some "favorites")).sort_by = some "favorites" ∧
    JObj.hasKey
      (cacheParams (ListRequest.mk 1 20 none none (some "favorites")) .raised) "user_id"
      = false :=
  ⟨rfl, by decide⟩

/-- C2 (amended): the cache parameter map contains `user_id` exactly when
`sort = 'favorites'` AND the identity lookup did not raise; when the lookup
raises — and for every other sort — `user_id` is absent, so any two
requests whose lookups raise share the identity-free map shape.  When two
favorites requests both resolve identities and those identities differ,
their parameter maps differ. -/
theorem c2_user_id_partitioning (r : ListRequest) (jwt : JwtOutcome) :
    (JObj.hasKey (cacheParams r jwt) "user_id"
      = (decide (r.sort_by = some "favorites") &&
          (match jwt with | .ok _ => true | .raised => false))) ∧
    (∀ u1 u2 : Option Int, r.sort_by = some "favorites" → u1 ≠ u2 →
      cacheParams r (.ok u1) ≠ cacheParams r (.ok u2)) := by
  constructor
  · by_cases hfav : r.sort_by = some "favorites"
    · cases jwt <;> simp [cacheParams, hfav, JObj.hasKey]
    · cases jwt <;> simp [cacheParams, hfav, JObj.hasKey]
  · intro u1 u2 hfav hne heq
    rw [cacheParams, if_pos hfav, cacheParams, if_pos hfav] at heq
    simp only [JObj.cons.injEq] at heq
    exact hne (optNum_inj heq.2.2.2.2.2.2.2.2.2.2.2.1)

/-- Witness for C2's amended theorem at concrete requests: a favorites
request with a resolved identity carries `user_id`; resolved identities 1
and 2 give different maps. -/
theorem c2_user_id_partitioning_witness :
    (JObj.hasKey
        (cacheParams (ListRequest.mk 1 20 none none (some "favorites")) (.ok (some 1)))
        "user_id"
      = (decide ((ListRequest.mk 1 20 none none (some "favorites")).sort_by
            = some "favorites") && true)) ∧
    (some 1 : Option Int) ≠ (some 2 : Option Int) ∧
    cacheParams (ListRequest.mk 1 20 none none (some "favorites")) (.ok (some 1))
      ≠ cacheParams (ListRequest.mk 1 20 none none (some "favorites")) (.ok (some 2)) :=
  ⟨(c2_user_id_partitioning (ListRequest.mk 1 20 none none (some "favorites"))
      (.ok (some 1))).1,
   by decide,
   (c2_user_id_partitioning (ListRequest.mk 1 20 none none (some "favorites"))
      (.ok (some 1))).2 (some 1) (some 2) rfl (by decide)⟩

/-! ## More cache-manager helpers -/

theorem clear_pattern_unavailable (cm : CacheManager) (pat : String)
    (h : ¬ (cm.hasClient = true ∧ cm.pingOk = true ∧ cm.cmdOk = true)) :
    (cm.clear_pattern pat).2 = cm := by
  rw [CacheManager.clear_pattern]
  by_cases h1 : cm.hasClient = true
  · by_cases h2 : cm.pingOk = true
    · have h3 : cm.cmdOk = false := by
        cases hc : cm.cmdOk
        · rfl
        · exact absurd ⟨h1, h2, hc⟩ h
      simp [CacheManager.is_available, h1, h2, h3]
    · have h2' : cm.pingOk = false := by
        cases hc : cm.pingOk
        · rfl
        · exact absurd hc h2
      simp [CacheManager.is_available, h2']
  · have h1' : cm.hasClient = false := by
      cases hc : cm.hasClient
      · rfl
      · exact absurd hc h1
    simp [CacheManager.is_available, h1']

theorem clear_pattern_frame (cm : CacheManager) (pat k : String)
    (h : globMatch pat k = false) :
    CacheManager.get ((cm.clear_pattern pat).2) k = CacheManager.get cm k := by
  by_cases hav : cm.hasClient = true ∧ cm.pingOk = true ∧ cm.cmdOk = true
  · exact get_clear_pattern_other cm pat k hav.1 hav.2.1 hav.2.2 h
  · rw [clear_pattern_unavailable cm pat hav]

theorem delete_unavailable (cm : CacheManager) (k : String)
    (h : ¬ (cm.hasClient = true ∧ cm.pingOk = true ∧ cm.cmdOk = true)) :
    (cm.delete k).2 = cm := by
  rw [CacheManager.delete]
  by_cases h1 : cm.hasClient = true
  · by_cases h2 : cm.pingOk = true
    · have h3 : cm.cmdOk = false := by
        cases hc : cm.cmdOk
        · rfl
        · exact absurd ⟨h1, h2, hc⟩ h
      simp [CacheManager.is_available, h1, h2, h3]
    · have h2' : cm.pingOk = false := by
        cases hc : cm.pingOk
        · rfl
        · exact absurd hc h2
      simp [CacheManager.is_available, h2']
  · have h1' : cm.hasClient = false := by
      cases hc : cm.hasClient
      · rfl
      · exact absurd hc h1
    simp [CacheManager.is_available, h1']

theorem delete_frame (cm : CacheManager) (k k2 : String) (hne : k2 ≠ k) :
    CacheManager.get ((cm.delete k).2) k2 = CacheManager.get cm k2 := by
  by_cases hav : cm.hasClient = true ∧ cm.pingOk = true ∧ cm.cmdOk = true
  · obtain ⟨h1, h2, h3⟩ := hav
    rw [CacheManager.delete]
    simp only [CacheManager.is_available, h1, h2, h3, Bool.and_self, not_true_eq_false,
      if_false, Bool.not_true]
    rw [CacheManager.get, CacheManager.get]
    simp only [CacheManager.is_available, h1, h2, h3]
    rw [rlookup_rdelete_other _ _ _ hne]
  · rw [delete_unavailable cm k hav]

theorem rlookup_erase_self (st : RedisState) (k : String) :
    rlookup { st with entries := st.entries.filter (fun e => e.1 ≠ k) } k = none := by
  rw [rlookup]
  have hnone : List.find? (fun e => e.1 == k && entryLive st.now e.2.2)
      (st.entries.filter (fun e => decide (e.1 ≠ k))) = none := by
    rw [List.find?_eq_none]
    intro e he
    have : e.1 ≠ k := by simpa using (List.mem_filter.mp he).2
    simp [this]
  rw [show ({ st with entries := st.entries.filter (fun e => e.1 ≠ k) } : RedisState).entries
    = st.entries.filter (fun e => decide (e.1 ≠ k)) from rfl]
  rw [show ({ st with entries := st.entries.filter (fun e => e.1 ≠ k) } : RedisState).now
    = st.now from rfl]
  rw [hnone]

theorem delete_after_set_same (cm : CacheManager) (k : String) (v : JVal) (t : Nat)
    (h1 : cm.hasClient = true) (h2 : cm.pingOk = true) (h3 : cm.cmdOk = true) :
    (CacheManager.delete ((cm.set k v (some (t + 1))).2) k).1 = true ∧
    CacheManager.get ((CacheManager.delete ((cm.set k v (some (t + 1))).2) k).2) k = none := by
  rw [set_avail cm k v t h1 h2 h3]
  dsimp only
  rw [CacheManager.delete]
  simp only [CacheManager.is_available, h1, h2, h3, Bool.and_self, not_true_eq_false, if_false,
    Bool.not_true]
  constructor
  · dsimp only [rdelete]
    rw [rlookup_rstore_self _ _ _ _ (by simp [entryLive])]
    simp
  · dsimp only [rdelete]
    rw [CacheManager.get]
    simp only [CacheManager.is_available, h1, h2, h3, Bool.and_self, not_true_eq_false, if_false,
      Bool.not_true]
    have hent : ((rstore cm.st k (serialize_data v) (some (cm.st.now + (t + 1)))).entries.filter
        (fun e => e.1 ≠ k)) = cm.st.entries.filter (fun e => e.1 ≠ k) := by
      dsimp only [rstore]
      rw [List.filter_cons_of_neg (by simp)]
      rw [List.filter_filter]
      simp
    rw [show (rstore cm.st k (serialize_data v) (some (cm.st.now + (t + 1)))).now = cm.st.now
      from rfl] at *
    rw [hent]
    rw [rlookup_erase_self cm.st k]

/-! ## Claim C8 — TTL semantics of `set` -/

theorem set_ttl_zero (cm : CacheManager) (k : String) (v : JVal)
    (h1 : cm.hasClient = true) (h2 : cm.pingOk = true) (h3 : cm.cmdOk = true) :
    cm.set k v (some 0) = (true, { cm with st := rstore cm.st k (serialize_data v) none }) := by
  rw [CacheManager.set]
  simp [CacheManager.is_available, h1, h2, h3]

theorem get_tick_expired (cm : CacheManager) (k : String) (v : JVal) (t d : Nat)
    (h1 : cm.hasClient = true) (h2 : cm.pingOk = true) (h3 : cm.cmdOk = true)
    (hd : t + 1 ≤ d) :
    CacheManager.get (((cm.set k v (some (t + 1))).2).tick d) k = none := by
  rw [set_avail cm k v t h1 h2 h3]
  dsimp only [CacheManager.tick]
  rw [CacheManager.get]
  simp only [CacheManager.is_available, h1, h2, h3, Bool.and_self, not_true_eq_false, if_false,
    Bool.not_true]
  rw [rlookup]
  dsimp only [rstore]
  rw [List.find?_cons_of_neg _ (by simp [entryLive]; omega)]
  have hnone : List.find? (fun e => e.1 == k && entryLive (cm.st.now + d) e.2.2)
      (List.filter (fun e => decide (e.1 ≠ k)) cm.st.entries) = none := by
    rw [List.find?_eq_none]
    intro e he
    have : e.1 ≠ k := by simpa using (List.mem_filter.mp he).2
    simp [this]
  rw [hnone]

theorem get_tick_noexpiry (cm : CacheManager) (k : String) (v : JVal) (d : Nat)
    (h1 : cm.hasClient = true) (h2 : cm.pingOk = true) (h3 : cm.cmdOk = true) :
    CacheManager.get (({ cm with st := rstore cm.st k (serialize_data v) none }).tick d) k
      = some v ∧
    CacheManager.get_ttl (({ cm with st := rstore cm.st k (serialize_data v) none }).tick d) k
      = -1 := by
  constructor
  · dsimp only [CacheManager.tick]
    rw [CacheManager.get]
    simp only [CacheManager.is_available, h1, h2, h3, Bool.and_self, not_true_eq_false, if_false,
      Bool.not_true]
    rw [rlookup]
    dsimp only [rstore]
    rw [List.find?_cons_of_pos _ (by simp [entryLive])]
    dsimp only
    rw [serializer_rt]
  · dsimp only [CacheManager.tick]
    rw [CacheManager.get_ttl]
    simp only [CacheManager.is_available, h1, h2, h3, Bool.and_self, not_true_eq_false, if_false,
      Bool.not_true]
    rw [rttl]
    dsimp only [rstore]
    rw [List.find?_cons_of_pos _ (by simp [entryLive])]

/-- C8 counterexample: with TTL `t = 0`, Python's `if ttl:` is falsy, so the
entry is stored with NO expiry: after 7 seconds it is still returned by
`get` (the claim says it is absent once `t = 0` seconds have elapsed), and
the store reports `-1` (no expiry) rather than a remaining TTL. -/
theorem c8_counterexample :
    CacheManager.get
      ((((CacheManager.mk true true true (RedisState.mk 0 [])).set "pokemon:1"
        (.str "bulbasaur") (some 0)).2).tick 7) "pokemon:1" = some (.str "bulbasaur") ∧
    CacheManager.get_ttl
      ((((CacheManager.mk true true true (RedisState.mk 0 [])).set "pokemon:1"
        (.str "bulbasaur") (some 0)).2).tick 7) "pokemon:1" = -1 := by
  constructor <;> rfl

/-- C8 (amended): for every TTL `t ≥ 1`, an entry written by
`set(key, value, t)` with the backend available is retrievable immediately
and is absent once `t` seconds have elapsed; for `t = 0` the TTL argument
is falsy (`if ttl:`), the entry is stored without an expiry, and it is
still retrievable after any delay, with `get_ttl` reporting `-1`. -/
theorem c8_ttl_respected (cm : CacheManager) (k : String) (v : JVal) (t d : Nat)
    (h1 : cm.hasClient = true) (h2 : cm.pingOk = true) (h3 : cm.cmdOk = true)
    (ht : 1 ≤ t) (hd : t ≤ d) :
    CacheManager.get ((cm.set k v (some t)).2) k = some v ∧
    CacheManager.get (((cm.set k v (some t)).2).tick d) k = none ∧
    (∀ (v0 : JVal) (d0 : Nat),
      CacheManager.get (((cm.set k v0 (some 0)).2).tick d0) k = some v0 ∧
      CacheManager.get_ttl (((cm.set k v0 (some 0)).2).tick d0) k = -1) := by
  obtain ⟨t', rfl⟩ : ∃ t', t = t' + 1 := ⟨t - 1, by omega⟩
  refine ⟨get_set_same cm k v t' h1 h2 h3, get_tick_expired cm k v t' d h1 h2 h3 (by omega), ?_⟩
  intro v0 d0
  rw [set_ttl_zero cm k v0 h1 h2 h3]
  exact get_tick_noexpiry cm k v0 d0 h1 h2 h3

/-- Witness for C8's amended theorem at a concrete manager, key, value,
TTL 5 and delay 5. -/
theorem c8_ttl_respected_witness :
    CacheManager.get
      (((CacheManager.mk true true true (RedisState.mk 0 [])).set "k" (.num 7) (some 5)).2) "k"
      = some (.num 7) ∧
    CacheManager.get
      ((((CacheManager.mk true true true (RedisState.mk 0 [])).set "k" (.num 7)
        (some 5)).2).tick 5) "k" = none ∧
    (∀ (v0 : JVal) (d0 : Nat),
      CacheManager.get
        ((((CacheManager.mk true true true (RedisState.mk 0 [])).set "k" v0 (some 0)).2).tick d0)
        "k" = some v0 ∧
      CacheManager.get_ttl
        ((((CacheManager.mk true true true (RedisState.mk 0 [])).set "k" v0 (some 0)).2).tick d0)
        "k" = -1) :=
  c8_ttl_respected (CacheManager.mk true true true (RedisState.mk 0 []))
    "k" (.num 7) 5 5 rfl rfl rfl (by omega) (by omega)

/-! ## Claim C9 — truthiness branch of `clear_pokemon_cache` -/

theorem entity_key_inj {a b : Int} (hne : a ≠ b) :
    generate_key pokemon_ns (pyStr a) [] ≠ generate_key pokemon_ns (pyStr b) [] := by
  rw [generate_key_two, generate_key_two]
  intro heq
  have hd := congrArg String.data heq
  rw [String.data_append, String.data_append] at hd
  have h2 := List.append_cancel_left hd
  have h3 : pyStr a = pyStr b := by
    have e1 : pyStr a = String.mk (pyStr a).data := rfl
    have e2 : pyStr b = String.mk (pyStr b).data := rfl
    rw [e1, e2, h2]
    rfl
  exact hne (pyStr_inj h3)

/-- C9: `clear_pokemon_cache` selects its branch by Python truthiness of
`pokemon_id`, not by `None`-ness — for a non-zero id it deletes exactly the
single entity key (count 0 or 1; the cached entry under that id is removed
while an entry under any other id survives), but for id = 0 it behaves
exactly like id = None and clears the whole `pokemon:*` namespace. -/
theorem c9_clear_pokemon_truthiness (cm : CacheManager) (i j : Int) (v : JVal)
    (h1 : cm.hasClient = true) (h2 : cm.pingOk = true) (h3 : cm.cmdOk = true)
    (hi : i ≠ 0) (hj : j ≠ i) :
    ((clear_pokemon_cache cm (some i)).1 = 0 ∨ (clear_pokemon_cache cm (some i)).1 = 1) ∧
    (clear_pokemon_cache ((cache_pokemon cm i v 3600).2) (some i)).1 = 1 ∧
    get_pokemon ((clear_pokemon_cache ((cache_pokemon cm i v 3600).2) (some i)).2) i = none ∧
    get_pokemon ((clear_pokemon_cache ((cache_pokemon cm j v 3600).2) (some i)).2) j = some v ∧
    (∀ cm2 : CacheManager, clear_pokemon_cache cm2 (some 0) = clear_pokemon_cache cm2 none) := by
  refine ⟨?_, ?_, ?_, ?_, ?_⟩
  · rw [clear_pokemon_cache]
    simp only [if_pos hi]
    by_cases hb : (cm.delete (generate_key pokemon_ns (pyStr i) [])).1 = true
    · right
      simp [hb]
    · left
      simp only [Bool.not_eq_true] at hb
      simp [hb]
  · rw [clear_pokemon_cache]
    simp only [if_pos hi]
    have hds := delete_after_set_same cm (generate_key pokemon_ns (pyStr i) []) v 3599 h1 h2 h3
    rw [cache_pokemon]
    simp [hds.1]
  · rw [clear_pokemon_cache]
    simp only [if_pos hi]
    have hds := delete_after_set_same cm (generate_key pokemon_ns (pyStr i) []) v 3599 h1 h2 h3
    rw [get_pokemon, cache_pokemon]
    exact hds.2
  · rw [clear_pokemon_cache]
    simp only [if_pos hi]
    rw [get_pokemon, cache_pokemon]
    rw [delete_frame _ _ _ (entity_key_inj hj)]
    exact get_set_same cm _ v 3599 h1 h2 h3
  · intro cm2
    rw [clear_pokemon_cache, clear_pokemon_cache]
    simp

/-- Witness for C9 at a concrete manager, id 1, other id 2. -/
theorem c9_clear_pokemon_truthiness_witness :
    ((clear_pokemon_cache (CacheManager.mk true true true (RedisState.mk 0 [])) (some 1)).1 = 0 ∨
      (clear_pokemon_cache (CacheManager.mk true true true (RedisState.mk 0 [])) (some 1)).1 = 1) ∧
    (clear_pokemon_cache
      ((cache_pokemon (CacheManager.mk true true true (RedisState.mk 0 [])) 1 (.num 5) 3600).2)
      (some 1)).1 = 1 ∧
    get_pokemon ((clear_pokemon_cache
      ((cache_pokemon (CacheManager.mk true true true (RedisState.mk 0 [])) 1 (.num 5) 3600).2)
      (some 1)).2) 1 = none ∧
    get_pokemon ((clear_pokemon_cache
      ((cache_pokemon (CacheManager.mk true true true (RedisState.mk 0 [])) 2 (.num 5) 3600).2)
      (some 1)).2) 2 = some (.num 5) ∧
    (∀ cm2 : CacheManager, clear_pokemon_cache cm2 (some 0) = clear_pokemon_cache cm2 none) :=
  c9_clear_pokemon_truthiness (CacheManager.mk true true true (RedisState.mk 0 []))
    1 2 (.num 5) rfl rfl rfl (by decide) (by decide)

/-! ## Claim C3 — `clear_pokeapi_cache` clears the wrong pattern -/

/-- C3 (code bug): `clear_pokeapi_cache` clears the pattern `"pokeapi:*"`
built from the unused `pokeapi_prefix`, but every PokeAPI entry is written
under `pokeapi_pokemon:`, `pokeapi_species:` or `pokeapi_evolution:`, none
of which matches `pokeapi:*`.  Evaluating the failing input: with the
backend available, after caching one entry of each kind and calling
`clear_pokeapi_cache`, the call reports 0 evictions and all three entries
are still returned — contradicting both the claim and the method's own
docstring ("Clear all PokeAPI cache"). -/
theorem c3_clear_pokeapi_evicts_nothing :
    (clear_pokeapi_cache
      ((cache_evolution_chain
        ((cache_species_data
          ((cache_pokemon_data (CacheManager.mk true true true (RedisState.mk 0 []))
            1 (.str "pika") 86400).2)
          1 (.str "species") 86400).2)
        1 (.str "evo") 86400).2)).1 = 0 ∧
    get_pokemon_data (clear_pokeapi_cache
      ((cache_evolution_chain
        ((cache_species_data
          ((cache_pokemon_data (CacheManager.mk true true true (RedisState.mk 0 []))
            1 (.str "pika") 86400).2)
          1 (.str "species") 86400).2)
        1 (.str "evo") 86400).2)).2 1 = some (.str "pika") ∧
    get_species_data (clear_pokeapi_cache
      ((cache_evolution_chain
        ((cache_species_data
          ((cache_pokemon_data (CacheManager.mk true true true (RedisState.mk 0 []))
            1 (.str "pika") 86400).2)
          1 (.str "species") 86400).2)
        1 (.str "evo") 86400).2)).2 1 = some (.str "species") ∧
    get_evolution_chain (clear_pokeapi_cache
      ((cache_evolution_chain
        ((cache_species_data
          ((cache_pokemon_data (CacheManager.mk true true true (RedisState.mk 0 []))
            1 (.str "pika") 86400).2)
          1 (.str "species") 86400).2)
        1 (.str "evo") 86400).2)).2 1 = some (.str "evo") :=
  ⟨rfl, rfl, rfl, rfl⟩

/-! ## Claim C5 — list-cache key determinism and read-back -/

/-- C5: `cache_pokemon_list` and `get_pokemon_list` derive the identical
key from a parameter map (the canonicalize-then-hash derivation is a pure
function of the map, computed by the same code in both), so with the
backend available a freshly cached list is returned by the following get. -/
theorem c5_list_key_determinism_readback (cm : CacheManager) (params : JObj) (R : JVal)
    (h1 : cm.hasClient = true) (h2 : cm.pingOk = true) (h3 : cm.cmdOk = true) :
    cache_list_key params = get_list_key params ∧
    get_pokemon_list ((cache_pokemon_list cm params R 300).2) params = some R := by
  refine ⟨rfl, ?_⟩
  rw [get_pokemon_list, cache_pokemon_list]
  exact get_set_same cm (cache_list_key params) R 299 h1 h2 h3

/-- Witness for C5 at a concrete manager and parameter map. -/
theorem c5_list_key_determinism_readback_witness :
    cache_list_key (.cons "page" (.num 1) .nil) = get_list_key (.cons "page" (.num 1) .nil) ∧
    get_pokemon_list
      ((cache_pokemon_list (CacheManager.mk true true true (RedisState.mk 0 []))
        (.cons "page" (.num 1) .nil) (.arr (.cons (.num 25) .nil)) 300).2)
      (.cons "page" (.num 1) .nil) = some (.arr (.cons (.num 25) .nil)) :=
  c5_list_key_determinism_readback (CacheManager.mk true true true (RedisState.mk 0 []))
    (.cons "page" (.num 1) .nil) (.arr (.cons (.num 25) .nil)) rfl rfl rfl

/-! ## Claim C4 — key discrimination of the 8-hex-char MD5 key -/

theorem append_key_inj {ns x y : String} (h : ns ++ ":" ++ x = ns ++ ":" ++ y) : x = y := by
  have hd := congrArg String.data h
  rw [String.data_append, String.data_append] at hd
  have h2 := List.append_cancel_left hd
  calc x = String.mk x.data := rfl
    _ = String.mk y.data := congrArg String.mk h2
    _ = y := rfl

/-- C4 counterexample: the list-cache key keeps only the first 8 hex
characters (32 bits) of the MD5 digest, so distinct parameter maps
collide.  The maps `page=89290` and `page=126363` (other fields as the
list route builds them) hash to the same truncated digest `ceccd120`: the
derived keys are equal, and a list cached under the first map IS returned
by a get under the second. -/
theorem c4_counterexample :
    (JObj.cons "page" (.num 89290) (.cons "per_page" (.num 20) (.cons "search" .null
      (.cons "type" .null (.cons "sort" .null .nil))))) ≠
    (JObj.cons "page" (.num 126363) (.cons "per_page" (.num 20) (.cons "search" .null
      (.cons "type" .null (.cons "sort" .null .nil))))) ∧
    cache_list_key (.cons "page" (.num 89290) (.cons "per_page" (.num 20) (.cons "search" .null
      (.cons "type" .null (.cons "sort" .null .nil))))) =
    cache_list_key (.cons "page" (.num 126363) (.cons "per_page" (.num 20) (.cons "search" .null
      (.cons "type" .null (.cons "sort" .null .nil))))) ∧
    get_pokemon_list
      ((cache_pokemon_list (CacheManager.mk true true true (RedisState.mk 0 []))
        (.cons "page" (.num 89290) (.cons "per_page" (.num 20) (.cons "search" .null
          (.cons "type" .null (.cons "sort" .null .nil)))))
        (.arr (.cons (.num 1) .nil)) 300).2)
      (.cons "page" (.num 126363) (.cons "per_page" (.num 20) (.cons "search" .null
        (.cons "type" .null (.cons "sort" .null .nil)))))
      = some (.arr (.cons (.num 1) .nil)) :=
  ⟨by decide, rfl, rfl⟩

/-- C4 (amended): key discrimination holds exactly up to the 32-bit digest
truncation — whenever two parameter maps have distinct truncated digests,
the derived keys differ and an entry cached under the first (into an empty
store) is not returned by a get under the second; the universal claim
fails only on truncated-digest collisions such as the exhibited one. -/
theorem c4_key_discrimination (cm : CacheManager) (P1 P2 : JObj) (R : JVal)
    (h1 : cm.hasClient = true) (h2 : cm.pingOk = true) (h3 : cm.cmdOk = true)
    (hst : cm.st.entries = [])
    (hdig : (md5hex (jDumpsSorted (.obj P1))).take 8
      ≠ (md5hex (jDumpsSorted (.obj P2))).take 8) :
    cache_list_key P1 ≠ cache_list_key P2 ∧
    get_pokemon_list ((cache_pokemon_list cm P1 R 300).2) P2 = none := by
  have hkey : cache_list_key P1 ≠ cache_list_key P2 := by
    rw [cache_list_key, cache_list_key, generate_key_two, generate_key_two]
    exact fun heq => hdig (append_key_inj heq)
  refine ⟨hkey, ?_⟩
  rw [get_pokemon_list, cache_pokemon_list]
  rw [show get_list_key P2 = cache_list_key P2 from rfl]
  generalize hg1 : cache_list_key P1 = k1 at hkey ⊢
  generalize hg2 : cache_list_key P2 = k2 at hkey ⊢
  rw [set_avail cm k1 R 299 h1 h2 h3]
  dsimp only
  rw [CacheManager.get]
  simp only [CacheManager.is_available, h1, h2, h3, Bool.and_self, not_true_eq_false, if_false,
    Bool.not_true]
  rw [rlookup_rstore_other _ _ _ _ _ (Ne.symm hkey)]
  rw [rlookup, hst]
  rfl

/-- Witness for C4's amended theorem: with pages 1 and 2, the truncated
digests differ, so the keys differ and there is no cross-read. -/
theorem c4_key_discrimination_witness :
    cache_list_key (.cons "page" (.num 1) .nil) ≠ cache_list_key (.cons "page" (.num 2) .nil) ∧
    get_pokemon_list
      ((cache_pokemon_list (CacheManager.mk true true true (RedisState.mk 0 []))
        (.cons "page" (.num 1) .nil) (.num 0) 300).2)
      (.cons "page" (.num 2) .nil) = none :=
  c4_key_discrimination (CacheManager.mk true true true (RedisState.mk 0 []))
    (.cons "page" (.num 1) .nil) (.cons "page" (.num 2) .nil) (.num 0)
    rfl rfl rfl rfl (by decide)

/-! ## Claim C6 — namespace isolation of the bulk clears -/

/-- C6: each namespace's bulk clear removes only keys of its own
namespace.  For every id, parameter map, term and type previously cached
with the backend available: `clear_list_cache`, `clear_search_cache` and
`clear_type_cache` never remove an entity entry written by
`cache_pokemon`; `clear_pokemon_cache()` (namespace-wide), the search
clear and the type clear never remove a `cache_pokemon_list` entry; and
likewise no clear of another namespace removes a `cache_search_results`
or `cache_type_filter` entry. -/
theorem c6_namespace_isolation (cm : CacheManager) (i : Int) (params : JObj)
    (term ty : String) (v : JVal)
    (h1 : cm.hasClient = true) (h2 : cm.pingOk = true) (h3 : cm.cmdOk = true) :
    get_pokemon ((clear_list_cache ((cache_pokemon cm i v 3600).2)).2) i = some v ∧
    get_pokemon ((clear_search_cache ((cache_pokemon cm i v 3600).2)).2) i = some v ∧
    get_pokemon ((clear_type_cache ((cache_pokemon cm i v 3600).2)).2) i = some v ∧
    get_pokemon_list
      ((clear_pokemon_cache ((cache_pokemon_list cm params v 300).2) none).2) params = some v ∧
    get_pokemon_list
      ((clear_search_cache ((cache_pokemon_list cm params v 300).2)).2) params = some v ∧
    get_pokemon_list
      ((clear_type_cache ((cache_pokemon_list cm params v 300).2)).2) params = some v ∧
    get_search_results
      ((clear_pokemon_cache ((cache_search_results cm term v 300).2) none).2) term = some v ∧
    get_search_results
      ((clear_list_cache ((cache_search_results cm term v 300).2)).2) term = some v ∧
    get_search_results
      ((clear_type_cache ((cache_search_results cm term v 300).2)).2) term = some v ∧
    get_type_filter
      ((clear_pokemon_cache ((cache_type_filter cm ty v 300).2) none).2) ty = some v ∧
    get_type_filter
      ((clear_list_cache ((cache_type_filter cm ty v 300).2)).2) ty = some v ∧
    get_type_filter
      ((clear_search_cache ((cache_type_filter cm ty v 300).2)).2) ty = some v := by
  refine ⟨?_, ?_, ?_, ?_, ?_, ?_, ?_, ?_, ?_, ?_, ?_, ?_⟩
  · rw [get_pokemon, clear_list_cache, cache_pokemon, generate_key_two]
    simp only [pokemon_ns, list_ns]
    rw [clear_pattern_frame _ _ _
      (glob_cross "pokemon_list" "pokemon" (pyStr i) (by decide) (by decide) (by decide))]
    exact get_set_same cm _ v 3599 h1 h2 h3
  · rw [get_pokemon, clear_search_cache, cache_pokemon, generate_key_two]
    simp only [pokemon_ns, search_ns]
    rw [clear_pattern_frame _ _ _
      (glob_cross "pokemon_search" "pokemon" (pyStr i) (by decide) (by decide) (by decide))]
    exact get_set_same cm _ v 3599 h1 h2 h3
  · rw [get_pokemon, clear_type_cache, cache_pokemon, generate_key_two]
    simp only [pokemon_ns, type_ns]
    rw [clear_pattern_frame _ _ _
      (glob_cross "pokemon_type" "pokemon" (pyStr i) (by decide) (by decide) (by decide))]
    exact get_set_same cm _ v 3599 h1 h2 h3
  · rw [get_pokemon_list, cache_pokemon_list, clear_pokemon_cache,
      show get_list_key params = cache_list_key params from rfl, cache_list_key,
      generate_key_two]
    simp only [pokemon_ns, list_ns]
    generalize (md5hex (jDumpsSorted (JVal.obj params))).take 8 = hsh
    rw [clear_pattern_frame _ _ _
      (glob_cross "pokemon" "pokemon_list" hsh (by decide) (by decide) (by decide))]
    exact get_set_same cm _ v 299 h1 h2 h3
  · rw [get_pokemon_list, cache_pokemon_list, clear_search_cache,
      show get_list_key params = cache_list_key params from rfl, cache_list_key,
      generate_key_two]
    simp only [search_ns, list_ns]
    generalize (md5hex (jDumpsSorted (JVal.obj params))).take 8 = hsh
    rw [clear_pattern_frame _ _ _
      (glob_cross "pokemon_search" "pokemon_list" hsh (by decide) (by decide) (by decide))]
    exact get_set_same cm _ v 299 h1 h2 h3
  · rw [get_pokemon_list, cache_pokemon_list, clear_type_cache,
      show get_list_key params = cache_list_key params from rfl, cache_list_key,
      generate_key_two]
    simp only [type_ns, list_ns]
    generalize (md5hex (jDumpsSorted (JVal.obj params))).take 8 = hsh
    rw [clear_pattern_frame _ _ _
      (glob_cross "pokemon_type" "pokemon_list" hsh (by decide) (by decide) (by decide))]
    exact get_set_same cm _ v 299 h1 h2 h3
  · rw [get_search_results, cache_search_results, clear_pokemon_cache, generate_key_two]
    simp only [pokemon_ns, search_ns]
    rw [clear_pattern_frame _ _ _
      (glob_cross "pokemon" "pokemon_search" (pyLower term) (by decide) (by decide) (by decide))]
    exact get_set_same cm _ v 299 h1 h2 h3
  · rw [get_search_results, cache_search_results, clear_list_cache, generate_key_two]
    simp only [list_ns, search_ns]
    rw [clear_pattern_frame _ _ _
      (glob_cross "pokemon_list" "pokemon_search" (pyLower term) (by decide) (by decide)
        (by decide))]
    exact get_set_same cm _ v 299 h1 h2 h3
  · rw [get_search_results, cache_search_results, clear_type_cache, generate_key_two]
    simp only [type_ns, search_ns]
    rw [clear_pattern_frame _ _ _
      (glob_cross "pokemon_type" "pokemon_search" (pyLower term) (by decide) (by decide)
        (by decide))]
    exact get_set_same cm _ v 299 h1 h2 h3
  · rw [get_type_filter, cache_type_filter, clear_pokemon_cache, generate_key_two]
    simp only [pokemon_ns, type_ns]
    rw [clear_pattern_frame _ _ _
      (glob_cross "pokemon" "pokemon_type" (pyLower ty) (by decide) (by decide) (by decide))]
    exact get_set_same cm _ v 299 h1 h2 h3
  · rw [get_type_filter, cache_type_filter, clear_list_cache, generate_key_two]
    simp only [list_ns, type_ns]
    rw [clear_pattern_frame _ _ _
      (glob_cross "pokemon_list" "pokemon_type" (pyLower ty) (by decide) (by decide)
        (by decide))]
    exact get_set_same cm _ v 299 h1 h2 h3
  · rw [get_type_filter, cache_type_filter, clear_search_cache, generate_key_two]
    simp only [search_ns, type_ns]
    rw [clear_pattern_frame _ _ _
      (glob_cross "pokemon_search" "pokemon_type" (pyLower ty) (by decide) (by decide)
        (by decide))]
    exact get_set_same cm _ v 299 h1 h2 h3

/-- Witness for C6 at a concrete manager, id 1, one-field parameter map,
term "Char" and type "Fire". -/
theorem c6_namespace_isolation_witness :
    get_pokemon ((clear_list_cache ((cache_pokemon
      (CacheManager.mk true true true (RedisState.mk 0 [])) 1 (.num 5) 3600).2)).2) 1
      = some (.num 5) ∧
    get_pokemon ((clear_search_cache ((cache_pokemon
      (CacheManager.mk true true true (RedisState.mk 0 [])) 1 (.num 5) 3600).2)).2) 1
      = some (.num 5) ∧
    get_pokemon ((clear_type_cache ((cache_pokemon
      (CacheManager.mk true true true (RedisState.mk 0 [])) 1 (.num 5) 3600).2)).2) 1
      = some (.num 5) ∧
    get_pokemon_list ((clear_pokemon_cache ((cache_pokemon_list
      (CacheManager.mk true true true (RedisState.mk 0 []))
      (.cons "page" (.num 1) .nil) (.num 5) 300).2) none).2)
      (.cons "page" (.num 1) .nil) = some (.num 5) ∧
    get_pokemon_list ((clear_search_cache ((cache_pokemon_list
      (CacheManager.mk true true true (RedisState.mk 0 []))
      (.cons "page" (.num 1) .nil) (.num 5) 300).2)).2)
      (.cons "page" (.num 1) .nil) = some (.num 5) ∧
    get_pokemon_list ((clear_type_cache ((cache_pokemon_list
      (CacheManager.mk true true true (RedisState.mk 0 []))
      (.cons "page" (.num 1) .nil) (.num 5) 300).2)).2)
      (.cons "page" (.num 1) .nil) = some (.num 5) ∧
    get_search_results ((clear_pokemon_cache ((cache_search_results
      (CacheManager.mk true true true (RedisState.mk 0 [])) "Char" (.num 5) 300).2) none).2)
      "Char" = some (.num 5) ∧
    get_search_results ((clear_list_cache ((cache_search_results
      (CacheManager.mk true true true (RedisState.mk 0 [])) "Char" (.num 5) 300).2)).2)
      "Char" = some (.num 5) ∧
    get_search_results ((clear_type_cache ((cache_search_results
      (CacheManager.mk true true true (RedisState.mk 0 [])) "Char" (.num 5) 300).2)).2)
      "Char" = some (.num 5) ∧
    get_type_filter ((clear_pokemon_cache ((cache_type_filter
      (CacheManager.mk true true true (RedisState.mk 0 [])) "Fire" (.num 5) 300).2) none).2)
      "Fire" = some (.num 5) ∧
    get_type_filter ((clear_list_cache ((cache_type_filter
      (CacheManager.mk true true true (RedisState.mk 0 [])) "Fire" (.num 5) 300).2)).2)
      "Fire" = some (.num 5) ∧
    get_type_filter ((clear_search_cache ((cache_type_filter
      (CacheManager.mk true true true (RedisState.mk 0 [])) "Fire" (.num 5) 300).2)).2)
      "Fire" = some (.num 5) :=
  c6_namespace_isolation (CacheManager.mk true true true (RedisState.mk 0 []))
    1 (.cons "page" (.num 1) .nil) "Char" "Fire" (.num 5) rfl rfl rfl
